import Mathlib

/-!
# Security dashboard: aggregation, classification, filtering and export

A shallow embedding of the client-side pipeline of the dashboard
(`src/front/src/api/models.js`, `src/front/src/api/attacks.js` and
`src/front/src/pages/Dashboard.jsx`).

* JavaScript values are the inductive type `JVal`; an object is the list of its
  own properties in enumeration order, a number is an integer.
* A JavaScript exception is the `error` case of `Except JsError`.
* The browser built-ins the code relies on (`String.prototype.toLowerCase`, the
  `Date` constructor and `Date.prototype.getDay`) are the fields of `Platform`.
* The network is a function from requests to outcomes; asynchronous functions
  return their value together with the effects they performed, in order.
-/

namespace Dashboard

/-! ## JavaScript values -/

/-- A JavaScript value as it arrives from `response.json()` (plus `undefined`). -/
inductive JVal where
  | undefined : JVal
  | null : JVal
  | bool (b : Bool) : JVal
  | num (n : Int) : JVal
  | str (s : String) : JVal
  | arr (items : List JVal) : JVal
  | obj (props : List (String × JVal)) : JVal

/-- A raised JavaScript exception. -/
inductive JsError where
  | typeError (what : String) : JsError
  deriving DecidableEq

/-- Decidable equality of outcomes. -/
instance instDecidableEqExcept {ε α : Type} [DecidableEq ε] [DecidableEq α] :
    DecidableEq (Except ε α)
  | .ok a, .ok b =>
    if h : a = b then isTrue (by rw [h]) else isFalse (by intro e; cases e; exact h rfl)
  | .error a, .error b =>
    if h : a = b then isTrue (by rw [h]) else isFalse (by intro e; cases e; exact h rfl)
  | .ok _, .error _ => isFalse (by intro e; cases e)
  | .error _, .ok _ => isFalse (by intro e; cases e)

namespace JVal

mutual
/-- Decidable equality of values, by recursion on the first value. -/
def decEq : (a b : JVal) → Decidable (a = b)
  | undefined, undefined => isTrue rfl
  | null, null => isTrue rfl
  | bool a, bool b =>
    if h : a = b then isTrue (by rw [h]) else isFalse (by intro e; cases e; exact h rfl)
  | num a, num b =>
    if h : a = b then isTrue (by rw [h]) else isFalse (by intro e; cases e; exact h rfl)
  | str a, str b =>
    if h : a = b then isTrue (by rw [h]) else isFalse (by intro e; cases e; exact h rfl)
  | arr a, arr b =>
    match decEqItems a b with
    | isTrue h => isTrue (by rw [h])
    | isFalse h => isFalse (by intro e; cases e; exact h rfl)
  | obj a, obj b =>
    match decEqProps a b with
    | isTrue h => isTrue (by rw [h])
    | isFalse h => isFalse (by intro e; cases e; exact h rfl)
  | undefined, null | undefined, bool _ | undefined, num _ | undefined, str _
  | undefined, arr _ | undefined, obj _
  | null, undefined | null, bool _ | null, num _ | null, str _ | null, arr _ | null, obj _
  | bool _, undefined | bool _, null | bool _, num _ | bool _, str _ | bool _, arr _
  | bool _, obj _
  | num _, undefined | num _, null | num _, bool _ | num _, str _ | num _, arr _ | num _, obj _
  | str _, undefined | str _, null | str _, bool _ | str _, num _ | str _, arr _ | str _, obj _
  | arr _, undefined | arr _, null | arr _, bool _ | arr _, num _ | arr _, str _ | arr _, obj _
  | obj _, undefined | obj _, null | obj _, bool _ | obj _, num _ | obj _, str _
  | obj _, arr _ => isFalse (by intro e; cases e)
termination_by structural a => a
/-- Decidable equality of arrays of values. -/
def decEqItems : (a b : List JVal) → Decidable (a = b)
  | [], [] => isTrue rfl
  | [], _ :: _ => isFalse (by intro e; cases e)
  | _ :: _, [] => isFalse (by intro e; cases e)
  | x :: xs, y :: ys =>
    match decEq x y, decEqItems xs ys with
    | isTrue h, isTrue h2 => isTrue (by rw [h, h2])
    | isFalse h, _ => isFalse (by intro e; cases e; exact h rfl)
    | _, isFalse h => isFalse (by intro e; cases e; exact h rfl)
termination_by structural a => a
/-- Decidable equality of property lists. -/
def decEqProps : (a b : List (String × JVal)) → Decidable (a = b)
  | [], [] => isTrue rfl
  | [], _ :: _ => isFalse (by intro e; cases e)
  | _ :: _, [] => isFalse (by intro e; cases e)
  | (k, x) :: xs, (l, y) :: ys =>
    if hk : k = l then
      match decEq x y, decEqProps xs ys with
      | isTrue h, isTrue h2 => isTrue (by rw [hk, h, h2])
      | isFalse h, _ => isFalse (by intro e; cases e; exact h rfl)
      | _, isFalse h => isFalse (by intro e; cases e; exact h rfl)
    else isFalse (by intro e; cases e; exact hk rfl)
termination_by structural a => a
end

instance : DecidableEq JVal := decEq

/-- JavaScript truthiness (`ToBoolean`): `undefined`, `null`, `false`, `0` and the
empty string are falsy, every array and object is truthy. -/
def truthy : JVal → Bool
  | undefined => false
  | null => false
  | bool b => b
  | num n => decide (n ≠ 0)
  | str s => decide (s ≠ "")
  | arr _ => true
  | obj _ => true

/-- The values `undefined` and `null`. -/
def nullish : JVal → Bool
  | undefined => true
  | null => true
  | _ => false

/-- Own-property lookup in a property list; an absent key reads as `undefined`. -/
def lookup (k : String) : List (String × JVal) → JVal
  | [] => undefined
  | (k', v) :: rest => if k' = k then v else lookup k rest

/-- The value read by a member expression `v.k` when it does not raise: the own
property of an object, `undefined` on every other value. Only the data-field names
of the dashboard payloads are read this way, and none of them is a built-in property
of an array, a string, a number or a boolean. -/
def field (v : JVal) (k : String) : JVal :=
  match v with
  | obj props => lookup k props
  | _ => undefined

/-- The member expression `v.k`: a `TypeError` on `undefined` and `null`. -/
def member (v : JVal) (k : String) : Except JsError JVal :=
  if nullish v then .error (.typeError ("cannot read properties: " ++ k))
  else .ok (field v k)

/-- The optional chain `v?.k`. -/
def optGet (v : JVal) (k : String) : JVal :=
  if nullish v then undefined else field v k

/-- The nullish coalescing `v ?? d`. -/
def orDefault (v d : JVal) : JVal :=
  if nullish v then d else v

/-- The logical or `a || b` on values. -/
def orElse (a b : JVal) : JVal :=
  if truthy a then a else b

mutual
/-- The string conversion `String(v)` (`ToString`); an array is the comma-joined
conversion of its elements. A number is an integer and is printed in plain decimal,
which is what JavaScript prints for an integer of magnitude below `10^21`. -/
def toStr : JVal → String
  | undefined => "undefined"
  | null => "null"
  | bool b => if b then "true" else "false"
  | num n => toString n
  | str s => s
  | arr items => joinWith "," items
  | obj _ => "[object Object]"
termination_by structural v => v
/-- The method `Array.prototype.join(sep)`: `undefined` and `null` elements are
rendered as the empty string, the others by `toStr`. -/
def joinWith (sep : String) : List JVal → String
  | [] => ""
  | x :: rest =>
    (match x with
      | undefined => ""
      | null => ""
      | v => toStr v) ++
    (match rest with
      | [] => ""
      | _ :: _ => sep ++ joinWith sep rest)
termination_by structural items => items
end

end JVal

open JVal

/-! ## Strings -/

/-- Whether the character list `p` starts the character list `s`. -/
def startsWith : List Char → List Char → Bool
  | [], _ => true
  | _ :: _, [] => false
  | p :: ps, c :: cs => p == c && startsWith ps cs

/-- Whether `p` occurs in `s` as a contiguous run. -/
def occursIn (p : List Char) : List Char → Bool
  | [] => startsWith p []
  | c :: cs => startsWith p (c :: cs) || occursIn p cs

/-- The method `String.prototype.includes`. -/
def includes (s p : String) : Bool := occursIn p.data s.data

/-- Replace the first occurrence of character `c` by `r`. -/
def replaceFirstChar (c r : Char) : List Char → List Char
  | [] => []
  | x :: xs => if x = c then r :: xs else x :: replaceFirstChar c r xs

/-- The call `s.replace(' ', 'T')` of the timestamp normalisation: only the first
blank is replaced. -/
def blankToT (s : String) : String := ⟨replaceFirstChar ' ' 'T' s.data⟩

/-- Lower-casing of the letters `A`–`Z`, all other characters unchanged. -/
def asciiLower (s : String) : String := ⟨s.data.map Char.toLower⟩

/-- Whether every character of the string is an ASCII character. -/
def isAscii (s : String) : Bool := s.data.all (fun c => decide (c.toNat < 128))

/-! ## Browser built-ins -/

/-- The built-ins of the JavaScript platform that the dashboard code calls.
`dateParse s` is the time value, in milliseconds, of `new Date(s)`, or `none` when
the date is invalid (time value `NaN`); `getDay t` is the local weekday of a valid
time value, Sunday being `0`. -/
structure Platform where
  toLowerCase : String → String
  toLowerCase_ascii : ∀ s, isAscii s = true → toLowerCase s = asciiLower s
  dateParse : String → Option Int
  getDay : Int → Fin 7

/-- The value of a decimal digit character. -/
def digitVal (c : Char) : Option Nat :=
  if '0' ≤ c ∧ c ≤ '9' then some (c.toNat - '0'.toNat) else none

/-- The number written by a run of decimal digits, most significant first. -/
def digitsVal : List Char → Option Nat
  | [] => none
  | cs => cs.foldl (fun acc c => acc.bind (fun n => (digitVal c).map (fun d => 10 * n + d)))
      (some 0)

/-- Days from 1970-01-01 to the given civil date of the proleptic Gregorian
calendar. -/
def daysFromCivil (y m d : Int) : Int :=
  let y' := if m ≤ 2 then y - 1 else y
  let era := y' / 400
  let yoe := y' - era * 400
  let doy := (153 * (if m > 2 then m - 3 else m + 9) + 2) / 5 + d - 1
  let doe := yoe * 365 + yoe / 4 - yoe / 100 + doy
  era * 146097 + doe - 719468

/-- The time value of a date-time text of the form `YYYY-MM-DDTHH:MM:SS`, read in
a local time zone that coincides with UTC; `none` for any other text. -/
def isoDateParse (s : String) : Option Int :=
  match s.data with
  | [y1, y2, y3, y4, '-', m1, m2, '-', d1, d2, 'T', h1, h2, ':', n1, n2, ':', s1, s2] =>
    match digitsVal [y1, y2, y3, y4], digitsVal [m1, m2], digitsVal [d1, d2],
      digitsVal [h1, h2], digitsVal [n1, n2], digitsVal [s1, s2] with
    | some y, some m, some d, some h, some n, some sec =>
      if 1 ≤ m ∧ m ≤ 12 ∧ 1 ≤ d ∧ d ≤ 31 ∧ h ≤ 23 ∧ n ≤ 59 ∧ sec ≤ 59 then
        some ((((daysFromCivil y m d * 24 + h) * 60 + n) * 60 + sec) * 1000)
      else none
    | _, _, _, _, _, _ => none
  | _ => none

/-- The weekday of a time value in a local time zone that coincides with UTC;
1970-01-01 was a Thursday. -/
def utcGetDay (t : Int) : Fin 7 :=
  ⟨((t / 86400000 + 4) % 7).toNat, by omega⟩

/-- A reference platform: ASCII lower-casing, ISO date-time texts, UTC as the local
time zone. -/
def refPlatform : Platform where
  toLowerCase := asciiLower
  toLowerCase_ascii := fun _ _ => rfl
  dateParse := isoDateParse
  getDay := utcGetDay

/-- The method call `v.toLowerCase()`: a `TypeError` when `v` is not a string. -/
def callToLowerCase (P : Platform) : JVal → Except JsError String
  | str s => .ok (P.toLowerCase s)
  | _ => .error (.typeError "toLowerCase is not a function")

/-- The method call `v.replace(' ', 'T')`: a `TypeError` when `v` is not a string. -/
def callReplace : JVal → Except JsError String
  | str s => .ok (blankToT s)
  | _ => .error (.typeError "replace is not a function")

/-! ## Classification engine (`Dashboard.jsx`) -/

namespace typeMap

/-- Label of the denial-of-service category. -/
def ddos : String := "حجب الخدمة"
/-- Label of the SQL injection category. -/
def sql : String := "حقن SQL"
/-- Label of the cross-site scripting category. -/
def xss : String := "XSS"
/-- Label of the login attempts category. -/
def login : String := "محاولات تسجيل دخول"
/-- Label of the catch-all category. -/
def other : String := "آخرون"

end typeMap

/-- The five labels of `typeMap`. -/
def typeMapLabels : List JVal :=
  [str typeMap.ddos, str typeMap.sql, str typeMap.xss, str typeMap.login, str typeMap.other]

/-- The keyword scan of `detectType` over the lower-cased message. -/
def scanMessage (msg : String) : String :=
  if includes msg "ddos" || includes msg "حجب" then typeMap.ddos
  else if includes msg "sql" then typeMap.sql
  else if includes msg "xss" then typeMap.xss
  else if includes msg "تسجيل" || includes msg "login" then typeMap.login
  else typeMap.other

/-- The function `detectType` of `attackDistribution`. -/
def detectType (P : Platform) (alert : JVal) : Except JsError JVal :=
  match member alert "attack" with
  | .error e => .error e
  | .ok attack =>
    if truthy attack then .ok attack
    else
      match member alert "message" with
      | .error e => .error e
      | .ok message =>
        match callToLowerCase P (orElse message (str "")) with
        | .error e => .error e
        | .ok msg => .ok (str (scanMessage msg))

/-- A field that holds text or is absent. -/
def isTextOrAbsent : JVal → Bool
  | str _ => true
  | undefined => true
  | _ => false

/-- An alert record of the data model: an object whose `message`, `source`,
`timestamp`, `level` and `attack` fields are each either text or absent. -/
def isAlertRecord : JVal → Bool
  | obj props =>
    isTextOrAbsent (lookup "message" props) && isTextOrAbsent (lookup "source" props) &&
    isTextOrAbsent (lookup "timestamp" props) && isTextOrAbsent (lookup "level" props) &&
    isTextOrAbsent (lookup "attack" props)
  | _ => false

/-- The array `daysAr` of day names, Sunday first. -/
def daysAr : List String :=
  ["الأحد", "الإثنين", "الثلاثاء", "الأربعاء", "الخميس", "الجمعة", "السبت"]

/-- The assignment `counts[d] += 1` on the array of counters. -/
def bump : List Int → Nat → List Int
  | [], _ => []
  | c :: cs, 0 => (c + 1) :: cs
  | c :: cs, d + 1 => c :: bump cs d

/-- One iteration of the `alerts.forEach` callback of `dailyTrendsData`. An alert
without a truthy timestamp is skipped; for an invalid date `getDay()` is `NaN` and
the assignment `counts[NaN] += 1` leaves the seven counters untouched. -/
def dayStep (P : Platform) (counts : List Int) (a : JVal) : Except JsError (List Int) :=
  match member a "timestamp" with
  | .error e => .error e
  | .ok ts =>
    if !truthy ts then .ok counts
    else
      match callReplace ts with
      | .error e => .error e
      | .ok iso =>
        match P.dateParse iso with
        | none => .ok counts
        | some t => .ok (bump counts (P.getDay t).val)

/-- The loop `alerts.forEach(...)` of `dailyTrendsData`, threading the counters. -/
def dayCounts (P : Platform) : List Int → List JVal → Except JsError (List Int)
  | counts, [] => .ok counts
  | counts, a :: rest =>
    match dayStep P counts a with
    | .error e => .error e
    | .ok counts' => dayCounts P counts' rest

/-- The final `counts.map((c, i) => ({ date: daysAr[i], attempts: c }))`, from
index `i` on. -/
def trendEntries : Nat → List Int → List JVal
  | _, [] => []
  | i, c :: cs =>
    obj [("date", (daysAr.get? i).elim undefined str), ("attempts", num c)] ::
      trendEntries (i + 1) cs

/-- The memoised value `dailyTrendsData`. -/
def dailyTrendsData (P : Platform) (alerts : List JVal) : Except JsError JVal :=
  if alerts.length = 0 then .ok null
  else
    match dayCounts P (List.replicate 7 0) alerts with
    | .error e => .error e
    | .ok counts => .ok (arr (trendEntries 0 counts))

/-! ## Filter engine (`Dashboard.jsx`) -/

/-- The constant `dayMs = 24*60*60*1000`. -/
def dayMs : Int := 24 * 60 * 60 * 1000

/-- The comparison `diffMs <= bound`, where `diffMs = now - alertDate` is `NaN`
(and the comparison false) when the alert date is invalid. -/
def diffLe (now : Int) (alertDate : Option Int) (bound : Int) : Bool :=
  match alertDate with
  | none => false
  | some t => decide (now - t ≤ bound)

/-- The predicate passed to `alerts.filter` by the alerts table, `now` being the
time value of `new Date()`. -/
def tablePredicate (P : Platform) (now : Int) (levelFilter periodFilter : String)
    (alert : JVal) : Except JsError Bool :=
  match member alert "level" with
  | .error e => .error e
  | .ok level =>
    if levelFilter ≠ "all" ∧ level ≠ str levelFilter then .ok false
    else if levelFilter = "all" ∧ level = str "low" then .ok false
    else if periodFilter = "all" then .ok true
    else
      match member alert "timestamp" with
      | .error e => .error e
      | .ok ts =>
        match callReplace ts with
        | .error e => .error e
        | .ok iso =>
          let alertDate := P.dateParse iso
          if periodFilter = "day" then .ok (diffLe now alertDate dayMs)
          else if periodFilter = "week" then .ok (diffLe now alertDate (7 * dayMs))
          else if periodFilter = "month" then .ok (diffLe now alertDate (30 * dayMs))
          else .ok true

/-- The method `Array.prototype.filter` with a callback that may raise. -/
def filterE {α : Type} (p : α → Except JsError Bool) : List α → Except JsError (List α)
  | [] => .ok []
  | a :: rest =>
    match p a with
    | .error e => .error e
    | .ok keep =>
      match filterE p rest with
      | .error e => .error e
      | .ok kept => .ok (if keep then a :: kept else kept)

/-- The rows of the alerts table: `alerts.filter(...)`. -/
def tableFilter (P : Platform) (now : Int) (levelFilter periodFilter : String)
    (alerts : List JVal) : Except JsError (List JVal) :=
  filterE (tablePredicate P now levelFilter periodFilter) alerts

/-! ## Remote data gateway (`api/models.js`, `api/attacks.js`) -/

/-- A request issued through `fetch`: the URL and, for a `POST`, the payload that is
sent as JSON body (`none` for a plain `GET`). -/
structure Request where
  url : String
  payload : Option JVal
  deriving DecidableEq

/-- What a `fetch` call resolves to: a rejection (network failure), or a response
with its status code and the value of `response.json()` (`none` when the body is
not valid JSON and `json()` rejects). -/
inductive Outcome where
  | failed : Outcome
  | response (status : Nat) (body : Option JVal) : Outcome
  deriving DecidableEq

/-- The backend as seen from the client. -/
abbrev Net := Request → Outcome

/-- The observable effects of the asynchronous code, in the order they are listed
by the function that performs them. -/
inductive Effect where
  | fetch (r : Request) : Effect
  | consoleError (what : String) : Effect
  | alert (msg : String) : Effect
  | newBlob (content : String) : Effect
  | createObjectURL : Effect
  | appendLink (download : String) : Effect
  | click : Effect
  | removeLink : Effect
  | revokeObjectURL : Effect
  deriving DecidableEq

/-- The property `response.ok`: the status is in the range 200–299. -/
def statusOk (status : Nat) : Bool := decide (200 ≤ status ∧ status ≤ 299)

/-- The constant `BASE_URL`: the configured address when it is a non-empty string,
the loopback default otherwise. -/
def BASE_URL (env : Option String) : String :=
  match env with
  | some u => if u ≠ "" then u else "http://127.0.0.1:5000"
  | none => "http://127.0.0.1:5000"

/-- The helper `safeFetch(url, options)`, where `payload` is the body of a `POST`. -/
def safeFetch (net : Net) (url : String) (payload : Option JVal) : JVal × List Effect :=
  let req : Request := ⟨url, payload⟩
  match net req with
  | .failed => (null, [.fetch req, .consoleError "API error"])
  | .response status body =>
    if !statusOk status then
      if status = 404 then (null, [.fetch req])
      else (null, [.fetch req, .consoleError "API error"])
    else
      match body with
      | none => (null, [.fetch req, .consoleError "API error"])
      | some v => (v, [.fetch req])

/-- The function `fetchModelKeys`: the `/models` response when it is an array, the
empty array otherwise. -/
def fetchModelKeys (net : Net) (base : String) : List JVal × List Effect :=
  let r := safeFetch net (base ++ "/models") none
  match r.1 with
  | arr items => (items, r.2)
  | _ => ([], r.2)

/-- The function `fetchModelInfo(key, payload)`: a `POST` when the payload is truthy,
a `GET` otherwise. -/
def fetchModelInfo (net : Net) (base : String) (key payload : JVal) : JVal × List Effect :=
  safeFetch net (base ++ "/model/" ++ toStr key) (if truthy payload then some payload else none)

/-- The constant `legacyModelRoutes`. -/
def legacyModelRoutes : List String :=
  ["/model1", "/model2", "/model3", "/model4", "/model5", "/model6",
   "/model7", "/model8", "/model9", "/model10", "/model11", "/model12"]

/-- The combination `Promise.all(xs.map(f))` of calls that never reject: the values
in the order of `xs`, the effects listed call by call. -/
def allOf {α : Type} (f : α → JVal × List Effect) : List α → List JVal × List Effect
  | [] => ([], [])
  | a :: rest => ((f a).1 :: (allOf f rest).1, (f a).2 ++ (allOf f rest).2)

/-- The function `fetchAllModels`. -/
def fetchAllModels (net : Net) (base : String) : List JVal × List Effect :=
  let keys := fetchModelKeys net base
  if keys.1.length = 0 then
    let rs := allOf (fun route => safeFetch net (base ++ route) none) legacyModelRoutes
    (rs.1, keys.2 ++ rs.2)
  else
    let rs := allOf (fun key => fetchModelInfo net base key null) keys.1
    (rs.1, keys.2 ++ rs.2)

/-- The element read `results[i]` of an array. -/
def index (results : List JVal) (i : Nat) : JVal := (results.get? i).getD undefined

/-- The method call `v.slice(0, 50)`: the first fifty elements of an array, the first
fifty characters of a string, a `TypeError` on every other value. Characters are
counted, which is what `slice` does on a text whose characters are single UTF-16
code units. -/
def callSlice50 : JVal → Except JsError JVal
  | arr items => .ok (arr (items.take 50))
  | str s => .ok (str ⟨s.data.take 50⟩)
  | _ => .error (.typeError "slice is not a function")

/-- The client-side aggregation of `fetchDashboardData`: the statements that follow
`const results = await fetchAllModels()`. -/
def fallbackAggregate (results : List JVal) : Except JsError JVal :=
  match callSlice50 (orDefault (optGet (index results 0) "alerts") (arr [])) with
  | .error e => .error e
  | .ok alerts =>
    .ok (obj [("alerts", alerts),
      ("stats", obj [
        ("todayAttempts", orDefault (optGet (index results 1) "todayAttempts") (num 0)),
        ("topAttack", orDefault (optGet (index results 2) "topAttack") (str "N/A")),
        ("successRate", orDefault (optGet (index results 3) "successRate") (num 0)),
        ("dailyTrends", orDefault (optGet (index results 4) "dailyTrends") (arr []))])])

/-- The function `fetchDashboardData`: its outcome and the effects it performed. -/
def fetchDashboardData (net : Net) (base : String) : Except JsError JVal × List Effect :=
  let data := safeFetch net (base ++ "/dashboard") none
  if truthy data.1 && truthy (field data.1 "alerts") && truthy (field data.1 "stats") then
    (.ok data.1, data.2)
  else
    let results := fetchAllModels net base
    (fallbackAggregate results.1, data.2 ++ results.2)

/-- The function `fetchAttackHistory(limit)`. -/
def fetchAttackHistory (net : Net) (base : String) (limit : Int) : JVal × List Effect :=
  let req : Request := ⟨base ++ "/attacks?limit=" ++ toString limit, none⟩
  match net req with
  | .failed => (arr [], [.fetch req, .consoleError "Failed to fetch attack history"])
  | .response status body =>
    if !statusOk status then
      (arr [], [.fetch req, .consoleError "Failed to fetch attack history"])
    else
      match body with
      | none => (arr [], [.fetch req, .consoleError "Failed to fetch attack history"])
      | some v => (v, [.fetch req])

/-! ## Exporter (`handleDownloadReport` in `Dashboard.jsx`) -/

/-- The notification shown when there is nothing to export. -/
def noRecordsMsg : String := "لا توجد سجلات هجمات متاحة للتنزيل"

/-- The notification shown when the export raised. -/
def downloadFailedMsg : String := "فشل تنزيل التقرير، حاول مرة أخرى لاحقاً"

/-- The read `records.length` on a non-nullish value (for a string only whether the
length is zero matters here). -/
def lengthOf : JVal → JVal
  | arr items => num items.length
  | str s => num s.data.length
  | obj props => lookup "length" props
  | _ => undefined

/-- The read `records[0]` on a non-nullish value. -/
def firstOf : JVal → JVal
  | arr items => index items 0
  | str s =>
    match s.data with
    | [] => undefined
    | c :: _ => str ⟨[c]⟩
  | obj props => lookup "0" props
  | _ => undefined

/-- The call `Object.keys(v)`. -/
def objectKeys : JVal → Except JsError (List String)
  | undefined => .error (.typeError "cannot convert undefined or null to object")
  | null => .error (.typeError "cannot convert undefined or null to object")
  | obj props => .ok (props.map Prod.fst)
  | arr items => .ok ((List.range items.length).map toString)
  | str s => .ok ((List.range s.data.length).map toString)
  | _ => .ok []

/-- The call `Object.values(v)`. -/
def objectValues : JVal → Except JsError (List JVal)
  | undefined => .error (.typeError "cannot convert undefined or null to object")
  | null => .error (.typeError "cannot convert undefined or null to object")
  | obj props => .ok (props.map Prod.snd)
  | arr items => .ok items
  | str s => .ok (s.data.map (fun c => str ⟨[c]⟩))
  | _ => .ok []

/-- The replacement `v.replace(/"/g, '""')`: every double quote is doubled. -/
def escapeQuotes : List Char → List Char
  | [] => []
  | c :: cs => if c = '"' then '"' :: '"' :: escapeQuotes cs else c :: escapeQuotes cs

/-- The cell callback `v => typeof v === 'string' ? quoted : v`. -/
def quoteValue : JVal → JVal
  | str s => str ⟨'"' :: (escapeQuotes s.data ++ ['"'])⟩
  | v => v

/-- The row callback `r => Object.values(r).map(...).join(",")`. -/
def csvRow (r : JVal) : Except JsError String :=
  match objectValues r with
  | .error e => .error e
  | .ok vs => .ok (joinWith "," (vs.map quoteValue))

/-- The method `Array.prototype.map` with a callback that may raise. -/
def mapE {α β : Type} (f : α → Except JsError β) : List α → Except JsError (List β)
  | [] => .ok []
  | a :: rest =>
    match f a with
    | .error e => .error e
    | .ok b =>
      match mapE f rest with
      | .error e => .error e
      | .ok bs => .ok (b :: bs)

/-- The text `csvContent` built by `handleDownloadReport` from the records. -/
def csvContent (records : JVal) : Except JsError String :=
  match objectKeys (firstOf records) with
  | .error e => .error e
  | .ok keys =>
    match records with
    | arr items =>
      match mapE csvRow items with
      | .error e => .error e
      | .ok rows =>
        .ok (joinWith "\n" [str (joinWith "," (keys.map str)), str (joinWith "\n" (rows.map str))])
    | _ => .error (.typeError "records.map is not a function")

/-- The handler `handleDownloadReport`, `now` being the value of `Date.now()`: the
effects it performs, in order. -/
def handleDownloadReport (net : Net) (base : String) (now : Int) : List Effect :=
  let history := fetchAttackHistory net base 1000
  if !truthy history.1 || !truthy (lengthOf history.1) then
    history.2 ++ [.alert noRecordsMsg]
  else
    match csvContent history.1 with
    | .error _ => history.2 ++ [.consoleError "export failed", .alert downloadFailedMsg]
    | .ok csv =>
      history.2 ++ [.newBlob csv, .createObjectURL,
        .appendLink ("attack_report_" ++ toString now ++ ".csv"),
        .click, .removeLink, .revokeObjectURL]

/-! ## Reference CSV reader

The reader against which the export is re-parsed: fields are separated by commas,
rows by line feeds; a double quote opens a quoted run that ends at the next single
double quote, a doubled double quote inside it standing for one. -/

/-- Put a character in front of the field being read. -/
def pushChar (c : Char) : List (List (List Char)) → List (List (List Char))
  | [] => [[[c]]]
  | [] :: rows => [[c]] :: rows
  | (f :: fs) :: rows => ((c :: f) :: fs) :: rows

/-- Start a new field in front of the row being read. -/
def pushField : List (List (List Char)) → List (List (List Char))
  | [] => [[[]]]
  | row :: rows => ([] :: row) :: rows

/-- Start a new row in front of the rows read so far. -/
def pushRow (rows : List (List (List Char))) : List (List (List Char)) :=
  [[]] :: rows

/-- The state of the reader: outside a quoted run, inside one, or just after a
double quote met inside one. -/
inductive CsvMode where
  | plain : CsvMode
  | quoted : CsvMode
  | closing : CsvMode

/-- The rows of a CSV text, read from the given state. -/
def csvRows : CsvMode → List Char → List (List (List Char))
  | _, [] => [[[]]]
  | .plain, c :: cs =>
    if c = '"' then csvRows .quoted cs
    else if c = ',' then pushField (csvRows .plain cs)
    else if c = '\n' then pushRow (csvRows .plain cs)
    else pushChar c (csvRows .plain cs)
  | .quoted, c :: cs =>
    if c = '"' then csvRows .closing cs
    else pushChar c (csvRows .quoted cs)
  | .closing, c :: cs =>
    if c = '"' then pushChar '"' (csvRows .quoted cs)
    else if c = ',' then pushField (csvRows .plain cs)
    else if c = '\n' then pushRow (csvRows .plain cs)
    else pushChar c (csvRows .plain cs)

/-- A CSV text re-parsed by its header row: every row after the first, each field
paired with the header field of the same position. -/
def reparseByHeader (csv : String) : List (List (String × String)) :=
  match csvRows .plain csv.data with
  | [] => []
  | header :: rows =>
    rows.map (fun row => (header.map String.mk).zip (row.map String.mk))

/-- The record a faithful re-parse yields for a record: the string form of each
value under its key. -/
def stringForms : JVal → List (String × String)
  | obj props => props.map (fun kv => (kv.1, toStr kv.2))
  | _ => []

/-! ## Predicates and inputs used in the statements -/

/-- The alert has a timestamp that `dailyTrendsData` can place on a weekday: a
non-empty text whose normalised form the `Date` constructor accepts. -/
def tsParsable (P : Platform) (a : JVal) : Bool :=
  match field a "timestamp" with
  | str s => decide (s ≠ "") && (P.dateParse (blankToT s)).isSome
  | _ => false

/-- The alert has a missing (absent or empty) or unparsable timestamp. -/
def tsSkipped (P : Platform) (a : JVal) : Bool :=
  match field a "timestamp" with
  | str s => decide (s = "") || (P.dateParse (blankToT s)).isNone
  | _ => true

/-- An alert record whose timestamp is present as text. -/
def isTimedAlert (a : JVal) : Bool :=
  isAlertRecord a &&
    (match field a "timestamp" with
     | str _ => true
     | _ => false)

/-- An alert that carries an explicit attack label outside `typeMap`. -/
def portScanAlert : JVal :=
  obj [("message", str "probe on port 22"), ("level", str "medium"),
       ("timestamp", str "2024-01-10 09:00:00"), ("attack", str "Port Scan")]

/-- The alert of the aggregate scenario. -/
def sqlAlert : JVal :=
  obj [("message", str "sql attack from model3"), ("level", str "high"),
       ("timestamp", str "2024-01-10 09:00:00"), ("source", str "10.0.0.5")]

/-- A low-level alert dated two days before `sqlAlert`. -/
def lowAlert : JVal :=
  obj [("message", str "failed login"), ("level", str "low"),
       ("timestamp", str "2024-01-08 09:00:00")]

/-- An alert without a timestamp. -/
def untimedAlert : JVal :=
  obj [("message", str "XSS probe"), ("level", str "high")]

/-- An alert dated twenty days before `sqlAlert`. -/
def oldAlert : JVal :=
  obj [("message", str "ddos burst"), ("level", str "high"),
       ("timestamp", str "2023-12-21 09:00:00")]

/-- A high-level alert dated five days before `sqlAlert`. -/
def weekAlert : JVal :=
  obj [("message", str "XSS payload in form"), ("level", str "high"),
       ("timestamp", str "2024-01-05 09:00:00")]

/-- A high-level alert dated one hundred and one days before `sqlAlert`. -/
def ancientAlert : JVal :=
  obj [("message", str "login flood"), ("level", str "high"),
       ("timestamp", str "2023-10-01 09:00:00")]

/-- The time value of 2024-01-10 12:00:00, three hours after `sqlAlert`. -/
def sampleNow : Int := 1704888000000

/-- A sample alert list with alerts of every age and of two levels. -/
def sampleAlerts : List JVal := [sqlAlert, lowAlert, weekAlert, oldAlert, ancientAlert]

/-- Whether the value is an object with an own property of that name. -/
def hasKey (v : JVal) (k : String) : Bool :=
  match v with
  | obj props => props.any (fun kv => decide (kv.1 = k))
  | _ => false

/-- The request `fetchDashboardData` starts with. -/
def dashboardRequest (base : String) : Request := ⟨base ++ "/dashboard", none⟩

/-- A backend that serves the listed URLs with status 200 and the given JSON value,
and answers "not found" to every other request. -/
def stubNet (routes : List (String × JVal)) : Net := fun r =>
  match routes.find? (fun kv => decide (kv.1 = r.url)) with
  | some kv => .response 200 (some kv.2)
  | none => .response 404 none

/-- The default base address. -/
def localBase : String := BASE_URL none

/-- A dashboard payload whose two keys are present with the values `[]` and `0`. -/
def zeroStatsPayload : JVal := obj [("alerts", arr []), ("stats", num 0)]

/-- A dashboard payload with no alerts and all-zero statistics. -/
def quietPayload : JVal :=
  obj [("alerts", arr []),
       ("stats", obj [("todayAttempts", num 0), ("topAttack", str ""), ("successRate", num 0)])]

/-- The aggregate of the scenario with one SQL alert. -/
def sqlAggregate : JVal :=
  obj [("alerts", arr [sqlAlert]),
       ("stats", obj [("todayAttempts", num 5), ("topAttack", str "SQLi"),
                      ("successRate", num 42)])]

/-- The value the fallback path builds when every fan-out result is `null`. -/
def emptyDashboard : JVal :=
  obj [("alerts", arr []),
       ("stats", obj [("todayAttempts", num 0), ("topAttack", str "N/A"),
                      ("successRate", num 0), ("dailyTrends", arr [])])]

/-- A backend whose aggregate is the empty object and whose single registered model
answers with a number in the place of its alert list. -/
def numericAlertsNet : Net :=
  stubNet [(localBase ++ "/dashboard", obj []),
           (localBase ++ "/models", arr [str "m1"]),
           (localBase ++ "/model/m1", obj [("alerts", num 5)])]

/-- A value on which the fallback aggregation can take its alert list: absent or
`null` (replaced by the empty array), an array or a text (both have `slice`). -/
def sliceableOrAbsent : JVal → Bool
  | undefined => true
  | null => true
  | arr _ => true
  | str _ => true
  | _ => false

/-- A character with no special role in CSV text. -/
def plainChar (c : Char) : Bool := c ≠ '"' && c ≠ ',' && c ≠ '\n'

/-- A key that can stand unquoted in a CSV header. -/
def plainKey (k : String) : Bool := k.data.all plainChar

/-- A value that is text, a number or a boolean. -/
def isCsvScalar : JVal → Bool
  | .str _ => true
  | .num _ => true
  | .bool _ => true
  | _ => false

/-- A flat record: an object with at least one property, all of whose values are
text, numbers or booleans. -/
def isFlatRecord : JVal → Bool
  | obj props => !props.isEmpty && props.all (fun kv => isCsvScalar kv.2)
  | _ => false

/-- The keys of a record, in enumeration order. -/
def keysOf : JVal → List String
  | obj props => props.map Prod.fst
  | _ => []

/-- The rest of a CSV text right after a cell: the end of the text, a comma or a
line feed. -/
def atDelimiter : List Char → Bool
  | [] => true
  | c :: _ => c = ',' || c = '\n'

/-- Put the characters of a field in front of the field being read. -/
def pushChars (f : List Char) (rows : List (List (List Char))) : List (List (List Char)) :=
  f.foldr pushChar rows

/-- The characters of a list of texts joined by a separator. -/
def joinChars (sep : List Char) : List (List Char) → List Char
  | [] => []
  | x :: rest =>
    x ++
    (match rest with
      | [] => []
      | _ :: _ => sep ++ joinChars sep rest)

/-- A record with a nested array among its values. -/
def taggedRecord : JVal := obj [("message", str "x"), ("tags", arr [str "a", str "b"])]

/-- A record with a `null` value. -/
def nullSourceRecord : JVal := obj [("message", str "x"), ("source", null)]

/-- A record whose key contains a comma. -/
def commaKeyRecord : JVal := obj [("a,b", str "1")]

/-- Two flat attack records, the first with a quote, a comma and a line feed in its
message. -/
def sampleRecords : List JVal :=
  [obj [("message", str "say \"hi\", then\nleave"), ("level", str "high"), ("count", num (-3))],
   obj [("message", str ""), ("level", str "low"), ("count", num 12)]]

/-- The cells of a record as the export writes and the reader should return them:
for each value the text written to the CSV row and the characters of its string
form. -/
def cellsOf : JVal → List (List Char × List Char)
  | obj props => props.map (fun kv => ((toStr (quoteValue kv.2)).data, (toStr kv.2).data))
  | _ => []

/-- The text of a record's CSV row, or the empty text when `csvRow` raises. -/
def rowText (r : JVal) : String :=
  match csvRow r with
  | .ok row => row
  | .error _ => ""

/-- The source of a fallback field is missing: the result at index `i` is absent,
`undefined` or `null`, or it has no field `k` (or holds `null` there). -/
def lacksField (results : List JVal) (i : Nat) (k : String) : Bool :=
  nullish (optGet (index results i) k)

/-- Seven fan-out results: three alerts in the first, one statistic in each of the
next four, and two further results that no field reads. -/
def sampleResults : List JVal :=
  [obj [("alerts", arr [sqlAlert, lowAlert, weekAlert])],
   obj [("todayAttempts", num 7)],
   obj [("topAttack", str "XSS")],
   obj [("successRate", num 64)],
   obj [("dailyTrends", arr [])],
   obj [("alerts", arr [oldAlert]), ("todayAttempts", num 99)],
   null]

/-- Fan-out results whose first entry reports the number 5 as its alert list. -/
def numericAlertsResults : List JVal := [obj [("alerts", num 5)]]

/-- Fan-out results whose second entry reports a text as `todayAttempts`. -/
def textAttemptsResults : List JVal := [null, obj [("todayAttempts", str "many")]]

/-- Fan-out results whose first entry reports a text as its alert list. -/
def textAlertsResults : List JVal := [obj [("alerts", str "none")]]

/-- The categories of the keyword scan in their priority order, each with its
keywords and its label. -/
def categories : List (List String × String) :=
  [(["ddos", "حجب"], typeMap.ddos),
   (["sql"], typeMap.sql),
   (["xss"], typeMap.xss),
   (["تسجيل", "login"], typeMap.login)]

/-- The label of the first category, in priority order, one of whose keywords occurs
in the text; the catch-all label when no keyword occurs. -/
def firstCategory (text : String) : String :=
  match categories.find? (fun c => c.1.any (fun kw => includes text kw)) with
  | some c => c.2
  | none => typeMap.other

/-- The text of an alert's message, empty when the alert has none. -/
def messageText (a : JVal) : String :=
  match field a "message" with
  | str s => s
  | _ => ""

/-- An alert whose `attack` field is present but empty. -/
def emptyLabelAlert : JVal :=
  obj [("message", str "SQL injection attempt"), ("attack", str "")]

/-- An alert whose message names three categories, in mixed letter case. -/
def mixedAlert : JVal :=
  obj [("message", str "Login page hit by XSS, then SQL, then a DDoS burst")]

/-! ## Attack-type distribution (`attackDistribution` in `Dashboard.jsx`) -/

/-- The array index a property key denotes: the key is the canonical decimal form of
a number below `2^32 - 1`. Such keys are enumerated before all other keys of an
object, in ascending numeric order. -/
def arrayIndex (k : String) : Option Nat :=
  match digitsVal k.data with
  | some n => if toString n = k ∧ n < 4294967295 then some n else none
  | none => none

/-- The own property of that name, if the object has one. -/
def ownValue (key : String) (props : List (String × JVal)) : Option JVal :=
  (props.find? (fun kv => decide (kv.1 = key))).map Prod.snd

/-- Creation of a new own property: an array index goes before the first key that is
a larger array index or no array index, any other key goes last. -/
def insertNew (key : String) (v : JVal) : List (String × JVal) → List (String × JVal)
  | [] => [(key, v)]
  | (k, w) :: rest =>
    match arrayIndex key with
    | none => (k, w) :: insertNew key v rest
    | some n =>
      match arrayIndex k with
      | some m => if n < m then (key, v) :: (k, w) :: rest else (k, w) :: insertNew key v rest
      | none => (key, v) :: (k, w) :: rest

/-- The assignment `counts[key] = v` on the own properties of a plain object: an
existing property keeps its place, a new one is created. -/
def setOwn (key : String) (v : JVal) (props : List (String × JVal)) : List (String × JVal) :=
  if props.any (fun kv => decide (kv.1 = key)) then
    props.map (fun kv => if kv.1 = key then (kv.1, v) else kv)
  else insertNew key v props

/-- The expression `(v || 0) + 1`: a number is incremented (a falsy value counts as
`0`), a text or an object is concatenated with `"1"`. -/
def orZeroPlusOne (v : JVal) : JVal :=
  match v with
  | .num n => if n ≠ 0 then num (n + 1) else num 1
  | .str s => if s ≠ "" then str (s ++ "1") else num 1
  | .bool b => if b then num 2 else num 1
  | .arr items => str (toStr (arr items) ++ "1")
  | .obj props => str (toStr (obj props) ++ "1")
  | .undefined => num 1
  | .null => num 1

/-- The statement `counts[key] = (counts[key] || 0) + 1`. `proto key` is the string
form of the property that every plain object inherits under that name from
`Object.prototype` (`constructor`, `toString`, ...), `none` for a name that is not
inherited; the inherited values are functions, hence truthy. An assignment to
`__proto__` with a text is ignored. -/
def countsStep (proto : String → Option String) (counts : List (String × JVal))
    (key : String) : List (String × JVal) :=
  if key = "__proto__" then counts
  else
    match ownValue key counts with
    | some v => setOwn key (orZeroPlusOne v) counts
    | none =>
      match proto key with
      | some text => setOwn key (str (text ++ "1")) counts
      | none => setOwn key (num 1) counts

/-- The loop `alerts.forEach(...)` of `attackDistribution`, threading `counts`; the
label is converted to a property key by `toStr`. -/
def countLoop (P : Platform) (proto : String → Option String) :
    List (String × JVal) → List JVal → Except JsError (List (String × JVal))
  | counts, [] => .ok counts
  | counts, a :: rest =>
    match detectType P a with
    | .error e => .error e
    | .ok key => countLoop P proto (countsStep proto counts (toStr key)) rest

/-- The memoised value `attackDistribution`: `null` for no alerts, otherwise
`Object.entries(counts)` as `(name, value)` objects. -/
def attackDistribution (P : Platform) (proto : String → Option String)
    (alerts : List JVal) : Except JsError JVal :=
  if alerts.length = 0 then .ok null
  else
    match countLoop P proto [] alerts with
    | .error e => .error e
    | .ok counts =>
      .ok (arr (counts.map (fun kv => obj [("name", str kv.1), ("value", kv.2)])))

/-- The inherited properties of a plain object on a reference platform. -/
def refProto (key : String) : Option String :=
  if key ∈ ["constructor", "hasOwnProperty", "isPrototypeOf", "propertyIsEnumerable",
      "toLocaleString", "toString", "valueOf", "__defineGetter__", "__defineSetter__",
      "__lookupGetter__", "__lookupSetter__"] then
    some ("function " ++ (if key = "constructor" then "Object" else key) ++
      "() \x7b [native code] \x7d")
  else none

/-- The label of an alert as a property key, empty when `detectType` raises. -/
def labelKey (P : Platform) (a : JVal) : String :=
  match detectType P a with
  | .ok v => toStr v
  | .error _ => ""

/-- The distinct elements of a list in the order in which they are first seen. -/
def firstSeen : List String → List String
  | [] => []
  | x :: xs => x :: (firstSeen xs).filter (fun y => decide (y ≠ x))

/-- A label that is stored as an ordinary counter: no array index, no inherited
name, not `__proto__`. -/
def ordinaryKey (proto : String → Option String) (k : String) : Bool :=
  (arrayIndex k).isNone && (proto k).isNone && decide (k ≠ "__proto__")

/-- Three alerts with explicit labels, the second one digit-only. -/
def codedAlerts : List JVal :=
  [obj [("message", str "a"), ("attack", str "scan")],
   obj [("message", str "b"), ("attack", str "404")],
   obj [("message", str "c"), ("attack", str "scan")]]

/-- An alert whose explicit label is the name of an inherited property. -/
def constructorAlert : JVal := obj [("message", str "a"), ("attack", str "constructor")]

/-- The counters expected after the labels `l`: one entry per distinct label, in
first-seen order, holding the number of occurrences of the label. -/
def tally (l : List String) : List (String × JVal) :=
  (firstSeen l).map (fun k => (k, num ((l.count k : Nat) : Int)))

/-- The weekday (Sunday `0` to Saturday `6`) on which the parsed timestamp of an
alert falls; `none` when the timestamp is missing, empty or unparsable. -/
def alertDay (P : Platform) (a : JVal) : Option Nat :=
  match field a "timestamp" with
  | str s =>
    if s = "" then none
    else (P.dateParse (blankToT s)).map (fun t => (P.getDay t).val)
  | _ => none

/-- The number of alerts whose parsed timestamp falls on weekday `i`. -/
def onDayCount (P : Platform) (alerts : List JVal) (i : Nat) : Int :=
  ((alerts.countP (fun a => decide (alertDay P a = some i)) : Nat) : Int)

/-- An alert whose timestamp is a text that is no date. -/
def malformedAlert : JVal :=
  obj [("message", str "port sweep"), ("level", str "high"), ("timestamp", str "yesterday")]

/-! ## Free-text search (`filteredAlerts` in `Dashboard.jsx`) -/

/-- The optional chain `v?.toLowerCase().includes(term)`: `undefined` when `v` is
`undefined` or `null`, a `TypeError` when `v` is another value that is not a string. -/
def optLowerIncludes (P : Platform) (v : JVal) (term : String) : Except JsError JVal :=
  if nullish v then .ok undefined
  else
    match callToLowerCase P v with
    | .error e => .error e
    | .ok s => .ok (bool (includes s term))

/-- The callback of `filteredAlerts`: the message test, or else the source test. -/
def searchPredicate (P : Platform) (searchTerm : String) (alert : JVal) :
    Except JsError Bool :=
  match member alert "message" with
  | .error e => .error e
  | .ok message =>
    match optLowerIncludes P message (P.toLowerCase searchTerm) with
    | .error e => .error e
    | .ok left =>
      if truthy left then .ok true
      else
        match member alert "source" with
        | .error e => .error e
        | .ok source =>
          match optLowerIncludes P source (P.toLowerCase searchTerm) with
          | .error e => .error e
          | .ok right => .ok (truthy right)

/-- The value `filteredAlerts`: `alerts.filter(...)`. -/
def filteredAlerts (P : Platform) (searchTerm : String) (alerts : List JVal) :
    Except JsError (List JVal) :=
  filterE (searchPredicate P searchTerm) alerts

/-- The field is a text that contains the search term when both are lower-cased. -/
def textMatches (P : Platform) (term : String) (v : JVal) : Bool :=
  match v with
  | str s => includes (P.toLowerCase s) (P.toLowerCase term)
  | _ => false

/-- The alert matches the search term on its message or on its source. -/
def searchMatches (P : Platform) (term : String) (a : JVal) : Bool :=
  textMatches P term (field a "message") || textMatches P term (field a "source")

/-- A record: any object. -/
def isObject : JVal → Bool
  | obj _ => true
  | _ => false

/-- The values of a record, in enumeration order. -/
def valuesOf : JVal → List JVal
  | obj props => props.map Prod.snd
  | _ => []

/-- The text of a CSV cell: a textual value between double quotes with every
embedded double quote doubled; any other value unquoted, as `join` renders it (its
string form, empty for `null` and `undefined`). -/
def cellChars : JVal → List Char
  | .str s => ['"'] ++ s.data.flatMap (fun c => if c = '"' then ['"', '"'] else [c]) ++ ['"']
  | .undefined => []
  | .null => []
  | v => (toStr v).data

/-- The lines of the CSV payload: the header line made of the keys of the first
record, then one line per record in input order; the fields of a line are separated
by commas. -/
def csvLines (first : JVal) (rest : List JVal) : List (List Char) :=
  List.intercalate [','] ((keysOf first).map String.data) ::
    (first :: rest).map (fun r => List.intercalate [','] ((valuesOf r).map cellChars))

/-- The time value of an alert's timestamp: the parse of the normalised text, `none`
when the timestamp is no text or is unparsable. -/
def alertTime (P : Platform) (a : JVal) : Option Int :=
  match field a "timestamp" with
  | str s => P.dateParse (blankToT s)
  | _ => none

/-- The level predicate of the alerts table: under "all" every level but "low",
otherwise exactly the selected level. -/
def levelAdmits (levelFilter : String) (a : JVal) : Bool :=
  if levelFilter = "all" then decide (field a "level" ≠ str "low")
  else decide (field a "level" = str levelFilter)

/-- The number of days a period filter spans. -/
def periodDays (periodFilter : String) : Option Int :=
  if periodFilter = "day" then some 1
  else if periodFilter = "week" then some 7
  else if periodFilter = "month" then some 30
  else none

/-- The period predicate of the alerts table on an alert dated `t`: true for "all",
otherwise `now - t ≤ k * 86400000` with `k` the days of the period. -/
def periodAdmits (now : Int) (periodFilter : String) (t : Int) : Bool :=
  match periodDays periodFilter with
  | some k => decide (now - t ≤ k * 86400000)
  | none => true

/-- An alert dated one day after `sampleNow`. -/
def futureAlert : JVal :=
  obj [("message", str "scheduled scan"), ("level", str "medium"),
       ("timestamp", str "2024-01-11 12:00:00")]

/-- The conjunction of the level predicate and the period predicate on an alert
with a parsable timestamp. -/
def tableAdmits (P : Platform) (now : Int) (levelFilter periodFilter : String)
    (a : JVal) : Bool :=
  levelAdmits levelFilter a &&
    (match alertTime P a with
     | some t => periodAdmits now periodFilter t
     | none => false)

/-! ## Poller (`useEffect` of `Dashboard.jsx`) -/

/-- The shared state of the dashboard component (`alerts`, `stats`, `loading`,
`modelKeys`) together with the two resources of the polling effect: its guard flag
`mounted` and whether its interval timer is still set. -/
structure PollState where
  alerts : JVal
  stats : JVal
  loading : Bool
  modelKeys : List JVal
  mounted : Bool
  timer : Bool

/-- What can happen once the polling effect is active: a `fetchKeys` request
resolves, a `loadDash` request resolves (its `fetchDashboardData` returned a value or
raised), the interval fires and starts another `loadDash`, or the cleanup runs. -/
inductive PollEvent where
  | keysResolved (keys : List JVal) : PollEvent
  | dashResolved (outcome : Except JsError JVal) : PollEvent
  | tick : PollEvent
  | cleanup : PollEvent

/-- The elements of an array as properties named by their index, from index `i`. -/
def indexedProps : Nat → List JVal → List (String × JVal)
  | _, [] => []
  | i, v :: rest => (toString i, v) :: indexedProps (i + 1) rest

/-- The own enumerable properties that an object spread `...v` copies: those of an
object, the indexed elements of an array or of a text, nothing for any other value. -/
def spreadProps : JVal → List (String × JVal)
  | .obj props => props
  | .arr items => indexedProps 0 items
  | .str s => indexedProps 0 (s.data.map (fun c => str ⟨[c]⟩))
  | _ => []

/-- The object literal `{ todayAttempts:0, topAttack:'-', successRate:0, ...v }`. -/
def statsWithDefaults (v : JVal) : JVal :=
  obj ((spreadProps v).foldl (fun acc kv => setOwn kv.1 kv.2 acc)
    [("todayAttempts", num 0), ("topAttack", str "-"), ("successRate", num 0)])

/-- The state when the polling effect has just been activated: the initial values of
the component's state, `mounted` true, the interval set. -/
def initialPollState : PollState :=
  { alerts := arr [], stats := obj [], loading := true, modelKeys := [],
    mounted := true, timer := true }

/-- One event of the polling effect. A resolution updates the shared state only when
`mounted` is still true; a `loadDash` whose `fetchDashboardData` raised, or resolved
to a value that cannot be destructured, rejects without touching the state; the
interval firing only starts a request; the cleanup clears the flag and the timer. -/
def pollStep (s : PollState) : PollEvent → PollState
  | .keysResolved keys => if s.mounted then { s with modelKeys := keys } else s
  | .dashResolved (.error _) => s
  | .dashResolved (.ok v) =>
    if nullish v then s
    else if s.mounted then
      { s with
        alerts := orElse (field v "alerts") (arr [])
        stats := statsWithDefaults (field v "stats")
        loading := false }
    else s
  | .tick => s
  | .cleanup => { s with mounted := false, timer := false }

/-- A run of the polling effect: the events applied in order. -/
def pollRun (s : PollState) (events : List PollEvent) : PollState :=
  events.foldl pollStep s

/-! ## Failure handling of the gateway -/

/-- Why the statements inside the `try` block of a gateway function raise: `fetch`
rejected, the code threw on a status outside 200–299, or `response.json()`
rejected. -/
inductive GatewayFailure where
  | network : GatewayFailure
  | httpStatus (status : Nat) : GatewayFailure
  | malformedBody : GatewayFailure
  deriving DecidableEq

/-- The `try` block of `safeFetch`: "not found" returns `null`, any other status
outside 200–299 throws, otherwise the parsed body is returned. -/
def safeFetchTry (net : Net) (req : Request) : Except GatewayFailure JVal :=
  match net req with
  | .failed => .error .network
  | .response status body =>
    if !statusOk status then
      if status = 404 then .ok null
      else .error (.httpStatus status)
    else
      match body with
      | none => .error .malformedBody
      | some v => .ok v

/-- The `try` block of `fetchAttackHistory`: every status outside 200–299 throws,
otherwise the parsed body is returned. -/
def fetchAttackHistoryTry (net : Net) (req : Request) : Except GatewayFailure JVal :=
  match net req with
  | .failed => .error .network
  | .response status body =>
    if !statusOk status then .error (.httpStatus status)
    else
      match body with
      | none => .error .malformedBody
      | some v => .ok v

/-- A transport outcome that is a failure: a network failure, a status outside
200–299 ("not found" included), or a body that is not valid JSON. -/
def transportFailed : Outcome → Bool
  | .failed => true
  | .response status body => !statusOk status || body.isNone

/-- The request `fetchModelInfo(key, payload)` issues. -/
def modelInfoRequest (base : String) (key payload : JVal) : Request :=
  ⟨base ++ "/model/" ++ toStr key, if truthy payload then some payload else none⟩

/-- The request `fetchAttackHistory(limit)` issues. -/
def historyRequest (base : String) (limit : Int) : Request :=
  ⟨base ++ "/attacks?limit=" ++ toString limit, none⟩

/-- A backend with one failure of each kind: `/models` is unreachable, `/model/a` is
not found, `/model/b` answers with status 500, `/model/c` and the attack history
answer with a body that is not JSON, `/model/d` answers with an object. -/
def faultyNet : Net := fun r =>
  if r.url = localBase ++ "/models" then .failed
  else if r.url = localBase ++ "/model/a" then .response 404 none
  else if r.url = localBase ++ "/model/b" then .response 500 (some (obj [("error", str "x")]))
  else if r.url = localBase ++ "/model/c" then .response 200 none
  else if r.url = localBase ++ "/model/d" then .response 200 (some (obj [("status", str "ok")]))
  else if r.url = localBase ++ "/attacks?limit=100" then .response 200 none
  else .response 404 none

/-- Fan-out results with no first result and a `todayAttempts` in the second. -/
def offsetResults : List JVal := [null, obj [("todayAttempts", num 7)]]

/-- Five fan-out results of which the third is `null` and the fifth is empty, the
second reporting a text as `todayAttempts`. -/
def partialResults : List JVal :=
  [obj [("alerts", arr [sqlAlert])],
   obj [("todayAttempts", str "many")],
   null,
   obj [("successRate", num 64)],
   obj []]

/-- Every character of the text is one UTF-16 code unit (it lies in the Basic
Multilingual Plane), so that positions in the text count characters. -/
def singleUnits (s : String) : Bool := s.data.all (fun c => decide (c.toNat < 65536))

/-- A backend that lists five models and serves four of them, the answers being the
entries of `partialResults`; the third model is unknown to it. -/
def partialNet : Net :=
  stubNet [(localBase ++ "/models", arr [str "a", str "b", str "c", str "d", str "e"]),
           (localBase ++ "/model/a", obj [("alerts", arr [sqlAlert])]),
           (localBase ++ "/model/b", obj [("todayAttempts", str "many")]),
           (localBase ++ "/model/d", obj [("successRate", num 64)]),
           (localBase ++ "/model/e", obj [])]

/-- The object that `JSON.parse` builds from the members of a JSON object text, taken
in the order in which they are seen: each member is set as an own property, a
repeated name keeping its place and taking the later value. -/
def parsedObject (members : List (String × JVal)) : JVal :=
  obj (members.foldl (fun props kv => setOwn kv.1 kv.2 props) [])

/-- The members of the record text `{"message":"x","404":"y"}`, as they are seen. -/
def indexKeyMembers : List (String × JVal) := [("message", str "x"), ("404", str "y")]

mutual
/-- Every number that the string conversion of the value prints is a safe integer
(its magnitude is at most `2^53 - 1`): it is exactly a JavaScript number and
JavaScript prints it in plain decimal. -/
def safeNumbers : JVal → Bool
  | .num n => decide (n.natAbs ≤ 9007199254740991)
  | .arr items => safeNumbersAll items
  | _ => true
termination_by structural v => v
/-- Every value of the list satisfies `safeNumbers`. -/
def safeNumbersAll : List JVal → Bool
  | [] => true
  | x :: xs => safeNumbers x && safeNumbersAll xs
termination_by structural items => items
end

/-- A record of the export: an object whose numeric values are safe integers. -/
def isExportRecord (r : JVal) : Bool := isObject r && safeNumbersAll (valuesOf r)

/-- The effects of a completed download of the text `csv` at time `now`: the blob,
its object URL, the link with its file name, the click and the clean-up. -/
def downloadEffects (csv : String) (now : Int) : List Effect :=
  [.newBlob csv, .createObjectURL,
   .appendLink ("attack_report_" ++ toString now ++ ".csv"),
   .click, .removeLink, .revokeObjectURL]

/-! ## Theorems -/

/-! ### Shapes of alert records -/

theorem isTextOrAbsent_cases {v : JVal} (h : isTextOrAbsent v = true) :
    v = undefined ∨ ∃ s, v = str s := by
  cases v <;> simp [isTextOrAbsent] at h ⊢

theorem isAlertRecord_obj {a : JVal} (h : isAlertRecord a = true) :
    ∃ props, a = obj props ∧ isTextOrAbsent (lookup "message" props) = true ∧
      isTextOrAbsent (lookup "timestamp" props) = true ∧
      isTextOrAbsent (lookup "level" props) = true ∧
      isTextOrAbsent (lookup "attack" props) = true := by
  cases a <;> simp [isAlertRecord] at h
  case obj props => exact ⟨props, rfl, h.1.1.1.1, h.1.1.2, h.1.2, h.2⟩

theorem member_obj (props : List (String × JVal)) (k : String) :
    member (obj props) k = .ok (lookup k props) := by
  simp [member, nullish, field]

theorem scanMessage_mem (msg : String) : str (scanMessage msg) ∈ typeMapLabels := by
  unfold scanMessage typeMapLabels
  split_ifs <;> simp

/-! ### Classification -/

theorem detectType_record (P : Platform) (a : JVal) (h : isAlertRecord a = true) :
    ∃ v, detectType P a = .ok v ∧
      ((truthy (field a "attack") = true ∧ v = field a "attack") ∨
       (truthy (field a "attack") = false ∧ v ∈ typeMapLabels)) := by
  obtain ⟨props, rfl, hm, -, -, ha⟩ := isAlertRecord_obj h
  simp only [detectType, member_obj, field]
  by_cases ht : truthy (lookup "attack" props) = true
  · exact ⟨_, by simp [ht], Or.inl ⟨ht, rfl⟩⟩
  · simp only [ht, Bool.false_eq_true, if_false]
    rcases isTextOrAbsent_cases hm with hu | ⟨s, hs⟩
    · refine ⟨str (scanMessage (P.toLowerCase "")), ?_,
        Or.inr ⟨by simp [ht], scanMessage_mem _⟩⟩
      simp [hu, orElse, truthy, callToLowerCase]
    · by_cases hs' : s = ""
      · refine ⟨str (scanMessage (P.toLowerCase "")), ?_,
          Or.inr ⟨by simp [ht], scanMessage_mem _⟩⟩
        simp [hs, hs', orElse, truthy, callToLowerCase]
      · refine ⟨str (scanMessage (P.toLowerCase s)), ?_,
          Or.inr ⟨by simp [ht], scanMessage_mem _⟩⟩
        simp [hs, hs', orElse, truthy, callToLowerCase]

/-- C1 (amended). For every sequence of alert records, `detectType` never fails on
any of them, and the label it returns is the alert's own `attack` field when that
field is truthy and one of the five labels of `typeMap` otherwise. -/
theorem detectType_total_label (P : Platform) (alerts : List JVal)
    (h : ∀ a ∈ alerts, isAlertRecord a = true) :
    ∀ a ∈ alerts, ∃ v, detectType P a = .ok v ∧
      ((truthy (field a "attack") = true ∧ v = field a "attack") ∨
       (truthy (field a "attack") = false ∧ v ∈ typeMapLabels)) :=
  fun a ha => detectType_record P a (h a ha)

/-- Witness of C1 (amended) on three alerts of the reference platform. -/
theorem detectType_total_label_witness :
    (∀ a ∈ [sqlAlert, portScanAlert, untimedAlert], isAlertRecord a = true) ∧
    ∀ a ∈ [sqlAlert, portScanAlert, untimedAlert], ∃ v, detectType refPlatform a = .ok v ∧
      ((truthy (field a "attack") = true ∧ v = field a "attack") ∨
       (truthy (field a "attack") = false ∧ v ∈ typeMapLabels)) :=
  ⟨by decide, detectType_total_label refPlatform _ (by decide)⟩

/-- Counterexample to C1 as stated: an alert record with the explicit attack label
"Port Scan" is classified with that label, which is none of the five labels of
`typeMap`. -/
theorem detectType_label_counterexample :
    isAlertRecord portScanAlert = true ∧
    detectType refPlatform portScanAlert = .ok (str "Port Scan") ∧
    ¬ (∀ a ∈ [portScanAlert], ∃ v, detectType refPlatform a = .ok v ∧ v ∈ typeMapLabels) := by
  refine ⟨by decide, by decide, ?_⟩
  intro h
  obtain ⟨v, hv, hmem⟩ := h portScanAlert (by simp)
  have : v = str "Port Scan" := by
    have h2 : detectType refPlatform portScanAlert = .ok (str "Port Scan") := by decide
    rw [h2] at hv
    cases hv
    rfl
  subst this
  revert hmem
  decide

/-! ### Daily trends -/

theorem bump_length (counts : List Int) (d : Nat) : (bump counts d).length = counts.length := by
  induction counts generalizing d with
  | nil => rfl
  | cons c cs ih => cases d <;> simp [bump, ih]

theorem bump_sum (counts : List Int) (d : Nat) (h : d < counts.length) :
    (bump counts d).sum = counts.sum + 1 := by
  induction counts generalizing d with
  | nil => simp at h
  | cons c cs ih =>
    cases d with
    | zero => simp [bump]; ring
    | succ d =>
      have hd : d < cs.length := by simpa using h
      simp [bump, ih d hd]; ring

theorem dayStep_record (P : Platform) (counts : List Int) (a : JVal)
    (hlen : counts.length = 7) (h : isAlertRecord a = true) :
    ∃ counts', dayStep P counts a = .ok counts' ∧ counts'.length = 7 ∧
      counts'.sum = counts.sum + (if tsParsable P a = true then 1 else 0) ∧
      (tsSkipped P a = !tsParsable P a) := by
  obtain ⟨props, rfl, -, ht, -, -⟩ := isAlertRecord_obj h
  simp only [dayStep, member_obj, tsParsable, tsSkipped, field]
  rcases isTextOrAbsent_cases ht with hu | ⟨s, hs⟩
  · simp [hu, truthy, hlen]
  · simp only [hs]
    by_cases hs' : s = ""
    · simp [hs', truthy, hlen]
    · cases hp : P.dateParse (blankToT s) with
      | none => simp [hs', truthy, callReplace, hp, hlen]
      | some t =>
        have hd : (P.getDay t).val < counts.length := by rw [hlen]; exact (P.getDay t).isLt
        simp [hs', truthy, callReplace, hp, bump_length, hlen, bump_sum _ _ hd]

theorem dayCounts_records (P : Platform) (alerts : List JVal)
    (h : ∀ a ∈ alerts, isAlertRecord a = true) (counts : List Int) (hlen : counts.length = 7) :
    ∃ counts', dayCounts P counts alerts = .ok counts' ∧ counts'.length = 7 ∧
      counts'.sum = counts.sum + (alerts.countP (tsParsable P) : Nat) ∧
      alerts.countP (tsSkipped P) + alerts.countP (tsParsable P) = alerts.length := by
  induction alerts generalizing counts with
  | nil => exact ⟨counts, rfl, hlen, by simp, by simp⟩
  | cons a rest ih =>
    obtain ⟨c1, h1, hl1, hs1, hsk⟩ :=
      dayStep_record P counts a hlen (h a (List.mem_cons_self _ _))
    obtain ⟨c2, h2, hl2, hs2, hcnt⟩ :=
      ih (fun x hx => h x (List.mem_cons_of_mem _ hx)) c1 hl1
    refine ⟨c2, by simp [dayCounts, h1, h2], hl2, ?_, ?_⟩
    · rw [hs2, hs1, List.countP_cons]
      by_cases hp : tsParsable P a = true
      · simp [hp]; ring
      · simp [hp]
    · rw [List.countP_cons, List.countP_cons, hsk]
      by_cases hp : tsParsable P a = true <;> simp [hp] <;> omega

/-- C2. For every non-empty sequence of alert records, `dailyTrendsData` returns the
seven entries built from seven counts whose sum is the number of alerts with a
parsable timestamp, and the number of alerts minus that sum is the number of alerts
whose timestamp is missing or unparsable. -/
theorem dailyTrends_sum (P : Platform) (alerts : List JVal) (hne : alerts ≠ [])
    (h : ∀ a ∈ alerts, isAlertRecord a = true) :
    ∃ counts : List Int, dailyTrendsData P alerts = .ok (arr (trendEntries 0 counts)) ∧
      counts.length = 7 ∧
      counts.sum = (alerts.countP (tsParsable P) : Nat) ∧
      (alerts.length : Int) - counts.sum = (alerts.countP (tsSkipped P) : Nat) := by
  obtain ⟨counts, hc, hl, hs, hcnt⟩ :=
    dayCounts_records P alerts h (List.replicate 7 0) (by simp)
  have hlen : alerts.length ≠ 0 := by simpa using hne
  refine ⟨counts, by simp only [dailyTrendsData, if_neg hlen, hc], hl, by simpa using hs, ?_⟩
  have hs' : counts.sum = (alerts.countP (tsParsable P) : Nat) := by simpa using hs
  rw [hs']
  omega

/-- Witness of C2: four alerts, two of them on parsable dates (a Wednesday and a
Monday), one without a timestamp and one with a malformed one. -/
theorem dailyTrends_sum_witness :
    ([sqlAlert, lowAlert, untimedAlert,
        obj [("message", str "x"), ("timestamp", str "yesterday")]] ≠ []) ∧
    dailyTrendsData refPlatform [sqlAlert, lowAlert, untimedAlert,
        obj [("message", str "x"), ("timestamp", str "yesterday")]] =
      .ok (arr (trendEntries 0 [0, 1, 0, 1, 0, 0, 0])) ∧
    ∃ counts : List Int, dailyTrendsData refPlatform [sqlAlert, lowAlert, untimedAlert,
        obj [("message", str "x"), ("timestamp", str "yesterday")]] =
      .ok (arr (trendEntries 0 counts)) ∧
      counts.length = 7 ∧
      counts.sum = ([sqlAlert, lowAlert, untimedAlert,
        obj [("message", str "x"), ("timestamp", str "yesterday")]].countP
          (tsParsable refPlatform) : Nat) ∧
      (([sqlAlert, lowAlert, untimedAlert,
        obj [("message", str "x"), ("timestamp", str "yesterday")]].length : Nat) : Int) -
          counts.sum =
        ([sqlAlert, lowAlert, untimedAlert,
          obj [("message", str "x"), ("timestamp", str "yesterday")]].countP
            (tsSkipped refPlatform) : Nat) :=
  ⟨by decide, by decide, dailyTrends_sum refPlatform _ (by decide) (by decide)⟩

/-! ### The alerts table filter -/

theorem filterE_mem {α : Type} {p : α → Except JsError Bool} {l kept : List α}
    (h : filterE p l = .ok kept) : ∀ a ∈ kept, a ∈ l ∧ p a = .ok true := by
  induction l generalizing kept with
  | nil =>
    simp [filterE] at h
    subst h
    simp
  | cons x rest ih =>
    simp only [filterE] at h
    cases hx : p x with
    | error e => simp [hx] at h
    | ok keep =>
      cases hr : filterE p rest with
      | error e => simp [hx, hr] at h
      | ok kept' =>
        simp only [hx, hr, Except.ok.injEq] at h
        subst h
        intro a ha
        cases keep with
        | false =>
          simp only [Bool.false_eq_true, if_false] at ha
          exact ⟨List.mem_cons_of_mem _ (ih hr a ha).1, (ih hr a ha).2⟩
        | true =>
          simp only [if_true, List.mem_cons] at ha
          rcases ha with rfl | ha
          · exact ⟨List.mem_cons_self _ _, hx⟩
          · exact ⟨List.mem_cons_of_mem _ (ih hr a ha).1, (ih hr a ha).2⟩

theorem filterE_total {α : Type} {p : α → Except JsError Bool} {l : List α}
    (h : ∀ a ∈ l, ∃ b, p a = .ok b) : ∃ kept, filterE p l = .ok kept := by
  induction l with
  | nil => exact ⟨[], rfl⟩
  | cons x rest ih =>
    obtain ⟨b, hb⟩ := h x (List.mem_cons_self _ _)
    obtain ⟨kept, hk⟩ := ih (fun a ha => h a (List.mem_cons_of_mem _ ha))
    exact ⟨_, by simp only [filterE, hb, hk]; rfl⟩

theorem filterE_mono {α : Type} {p q : α → Except JsError Bool} {l k1 : List α}
    (h1 : filterE p l = .ok k1)
    (hpq : ∀ a ∈ l, ∀ b, p a = .ok b → ∃ b', q a = .ok b' ∧ (b = true → b' = true)) :
    ∃ k2, filterE q l = .ok k2 ∧ k1.Sublist k2 := by
  induction l generalizing k1 with
  | nil =>
    simp [filterE] at h1
    subst h1
    exact ⟨[], rfl, List.Sublist.refl _⟩
  | cons x rest ih =>
    simp only [filterE] at h1
    cases hx : p x with
    | error e => simp [hx] at h1
    | ok keep =>
      cases hr : filterE p rest with
      | error e => simp [hx, hr] at h1
      | ok kept' =>
        simp only [hx, hr, Except.ok.injEq] at h1
        subst h1
        obtain ⟨b', hq, himp⟩ := hpq x (List.mem_cons_self _ _) keep hx
        obtain ⟨k2, hk2, hsub⟩ := ih hr (fun a ha => hpq a (List.mem_cons_of_mem _ ha))
        refine ⟨_, by simp only [filterE, hq, hk2]; rfl, ?_⟩
        cases keep with
        | true =>
          simp only [himp rfl, if_true]
          exact hsub.cons₂ x
        | false =>
          cases b' with
          | true => simpa using hsub.cons x
          | false => simpa using hsub

theorem diffLe_mono {now : Int} {d : Option Int} {b1 b2 : Int} (hb : b1 ≤ b2)
    (h : diffLe now d b1 = true) : diffLe now d b2 = true := by
  cases d with
  | none => simp [diffLe] at h
  | some t =>
    simp only [diffLe, decide_eq_true_eq] at h ⊢
    omega

theorem tablePredicate_level {P : Platform} {now : Int} {lf pf : String} {a : JVal}
    (h : tablePredicate P now lf pf a = .ok true) :
    (lf = "all" → field a "level" ≠ str "low") ∧ (lf ≠ "all" → field a "level" = str lf) := by
  unfold tablePredicate at h
  by_cases hn : nullish a = true
  · simp [member, hn] at h
  · simp only [member, hn, Bool.false_eq_true, if_false] at h
    by_cases hall : lf = "all"
    · by_cases hlow : field a "level" = str "low"
      · simp [hall, hlow] at h
      · exact ⟨fun _ => hlow, fun hne => absurd hall hne⟩
    · by_cases heq : field a "level" = str lf
      · exact ⟨fun he => absurd he hall, fun _ => heq⟩
      · simp [hall, heq] at h

theorem tablePredicate_timed (P : Platform) (now : Int) (lf pf : String) {a : JVal}
    (h : isTimedAlert a = true) : ∃ b, tablePredicate P now lf pf a = .ok b := by
  simp only [isTimedAlert, Bool.and_eq_true] at h
  obtain ⟨props, rfl, -⟩ := isAlertRecord_obj h.1
  have hts := h.2
  simp only [field] at hts
  unfold tablePredicate
  simp only [member_obj]
  split_ifs
  · exact ⟨_, rfl⟩
  · exact ⟨_, rfl⟩
  · exact ⟨_, rfl⟩
  all_goals
    cases hl : lookup "timestamp" props <;> simp [hl] at hts
    simp only [callReplace]
    first
      | exact ⟨_, rfl⟩

theorem tablePredicate_day_week {P : Platform} {now : Int} {lf : String} {a : JVal} {b : Bool}
    (h : tablePredicate P now lf "day" a = .ok b) :
    ∃ b', tablePredicate P now lf "week" a = .ok b' ∧ (b = true → b' = true) := by
  unfold tablePredicate at h ⊢
  cases hm : member a "level" with
  | error e => simp [hm] at h
  | ok level =>
    simp only [hm] at h ⊢
    by_cases c1 : lf ≠ "all" ∧ level ≠ str lf
    · rw [if_pos c1] at h ⊢
      exact ⟨false, rfl, by cases h; simp⟩
    · by_cases c2 : lf = "all" ∧ level = str "low"
      · rw [if_neg c1, if_pos c2] at h ⊢
        exact ⟨false, rfl, by cases h; simp⟩
      · rw [if_neg c1, if_neg c2] at h ⊢
        cases ht : member a "timestamp" with
        | error e => simp [ht] at h
        | ok ts =>
          cases hr : callReplace ts with
          | error e => simp [ht, hr] at h
          | ok iso =>
            simp [ht, hr] at h ⊢
            subst h
            exact diffLe_mono (by simp [dayMs])

theorem tablePredicate_week_month {P : Platform} {now : Int} {lf : String} {a : JVal}
    {b : Bool} (h : tablePredicate P now lf "week" a = .ok b) :
    ∃ b', tablePredicate P now lf "month" a = .ok b' ∧ (b = true → b' = true) := by
  unfold tablePredicate at h ⊢
  cases hm : member a "level" with
  | error e => simp [hm] at h
  | ok level =>
    simp only [hm] at h ⊢
    by_cases c1 : lf ≠ "all" ∧ level ≠ str lf
    · rw [if_pos c1] at h ⊢
      exact ⟨false, rfl, by cases h; simp⟩
    · by_cases c2 : lf = "all" ∧ level = str "low"
      · rw [if_neg c1, if_pos c2] at h ⊢
        exact ⟨false, rfl, by cases h; simp⟩
      · rw [if_neg c1, if_neg c2] at h ⊢
        cases ht : member a "timestamp" with
        | error e => simp [ht] at h
        | ok ts =>
          cases hr : callReplace ts with
          | error e => simp [ht, hr] at h
          | ok iso =>
            simp [ht, hr] at h ⊢
            subst h
            exact diffLe_mono (by simp [dayMs])

theorem tablePredicate_month_all {P : Platform} {now : Int} {lf : String} {a : JVal}
    {b : Bool} (h : tablePredicate P now lf "month" a = .ok b) :
    ∃ b', tablePredicate P now lf "all" a = .ok b' ∧ (b = true → b' = true) := by
  unfold tablePredicate at h ⊢
  cases hm : member a "level" with
  | error e => simp [hm] at h
  | ok level =>
    simp only [hm] at h ⊢
    by_cases c1 : lf ≠ "all" ∧ level ≠ str lf
    · rw [if_pos c1] at h ⊢
      exact ⟨false, rfl, by cases h; simp⟩
    · by_cases c2 : lf = "all" ∧ level = str "low"
      · rw [if_neg c1, if_pos c2] at h ⊢
        exact ⟨false, rfl, by cases h; simp⟩
      · rw [if_neg c1, if_neg c2]
        exact ⟨true, by simp, fun _ => rfl⟩

/-- C3. For every alert list, reference time and period filter: with level filter
"all" the alerts table never retains an alert whose level is "low"; with level
filter `L` among "high", "medium" and "low" it retains only alerts whose level is
exactly `L`; and on alert records with a text timestamp the filter always returns. -/
theorem tableFilter_level (P : Platform) (now : Int) (periodFilter : String)
    (alerts : List JVal) :
    (∀ kept, tableFilter P now "all" periodFilter alerts = .ok kept →
      ∀ a ∈ kept, field a "level" ≠ str "low") ∧
    (∀ L ∈ ["high", "medium", "low"], ∀ kept,
      tableFilter P now L periodFilter alerts = .ok kept →
      ∀ a ∈ kept, field a "level" = str L) ∧
    ((∀ a ∈ alerts, isTimedAlert a = true) →
      ∀ levelFilter, ∃ kept, tableFilter P now levelFilter periodFilter alerts = .ok kept) := by
  refine ⟨?_, ?_, ?_⟩
  · intro kept h a ha
    exact (tablePredicate_level (filterE_mem h a ha).2).1 rfl
  · intro L hL kept h a ha
    have hne : L ≠ "all" := by
      intro he
      subst he
      revert hL
      decide
    exact (tablePredicate_level (filterE_mem h a ha).2).2 hne
  · intro h levelFilter
    exact filterE_total (fun a ha => tablePredicate_timed P now levelFilter periodFilter (h a ha))

/-- Witness of C3 on the sample alerts: under "all" the low alert is dropped, under
"low" only the low alert is kept. -/
theorem tableFilter_level_witness :
    tableFilter refPlatform sampleNow "all" "all" sampleAlerts =
      .ok [sqlAlert, weekAlert, oldAlert, ancientAlert] ∧
    tableFilter refPlatform sampleNow "low" "week" sampleAlerts = .ok [lowAlert] ∧
    (∀ a ∈ [sqlAlert, weekAlert, oldAlert, ancientAlert], field a "level" ≠ str "low") ∧
    (∀ a ∈ [lowAlert], field a "level" = str "low") :=
  ⟨by decide, by decide,
   (tableFilter_level refPlatform sampleNow "all" sampleAlerts).1 _ (by decide),
   (tableFilter_level refPlatform sampleNow "week" sampleAlerts).2.1 "low" (by decide) _
     (by decide)⟩

/-- C4. For every alert list, reference time and level filter, the alerts retained
by the table nest by period: whenever the "day" filter returns, so do the "week",
"month" and "all" filters, and each result is a sub-sequence of the next; on alert
records with a text timestamp the "day" filter always returns. -/
theorem tableFilter_period_nesting (P : Platform) (now : Int) (levelFilter : String)
    (alerts : List JVal) :
    (∀ day, tableFilter P now levelFilter "day" alerts = .ok day →
      ∃ week month all,
        tableFilter P now levelFilter "week" alerts = .ok week ∧
        tableFilter P now levelFilter "month" alerts = .ok month ∧
        tableFilter P now levelFilter "all" alerts = .ok all ∧
        day.Sublist week ∧ week.Sublist month ∧ month.Sublist all) ∧
    ((∀ a ∈ alerts, isTimedAlert a = true) →
      ∃ day, tableFilter P now levelFilter "day" alerts = .ok day) := by
  refine ⟨?_, ?_⟩
  · intro day hd
    obtain ⟨week, hw, h1⟩ := filterE_mono hd (fun a _ b hb => tablePredicate_day_week hb)
    obtain ⟨month, hm, h2⟩ := filterE_mono hw (fun a _ b hb => tablePredicate_week_month hb)
    obtain ⟨all, ha, h3⟩ := filterE_mono hm (fun a _ b hb => tablePredicate_month_all hb)
    exact ⟨week, month, all, hw, hm, ha, h1, h2, h3⟩
  · intro h
    exact filterE_total (fun a ha => tablePredicate_timed P now levelFilter "day" (h a ha))

/-- Witness of C4 on the sample alerts at level "high": one alert of the last day,
two of the last week, three of the last month, four in all. -/
theorem tableFilter_period_nesting_witness :
    tableFilter refPlatform sampleNow "high" "day" sampleAlerts = .ok [sqlAlert] ∧
    tableFilter refPlatform sampleNow "high" "week" sampleAlerts = .ok [sqlAlert, weekAlert] ∧
    tableFilter refPlatform sampleNow "high" "month" sampleAlerts =
      .ok [sqlAlert, weekAlert, oldAlert] ∧
    tableFilter refPlatform sampleNow "high" "all" sampleAlerts =
      .ok [sqlAlert, weekAlert, oldAlert, ancientAlert] ∧
    ∃ week month all,
      tableFilter refPlatform sampleNow "high" "week" sampleAlerts = .ok week ∧
      tableFilter refPlatform sampleNow "high" "month" sampleAlerts = .ok month ∧
      tableFilter refPlatform sampleNow "high" "all" sampleAlerts = .ok all ∧
      [sqlAlert].Sublist week ∧ week.Sublist month ∧ month.Sublist all :=
  ⟨by decide, by decide, by decide, by decide,
   (tableFilter_period_nesting refPlatform sampleNow "high" sampleAlerts).1 _ (by decide)⟩

/-! ### Aggregation -/

theorem safeFetch_served (net : Net) (url : String) (status : Nat) (d : JVal)
    (hnet : net ⟨url, none⟩ = .response status (some d)) (hok : statusOk status = true) :
    safeFetch net url none = (d, [.fetch ⟨url, none⟩]) := by
  simp [safeFetch, hnet, hok]

theorem safeFetch_notFound (net : Net) (url : String) (body : Option JVal)
    (hnet : net ⟨url, none⟩ = .response 404 body) :
    safeFetch net url none = (null, [.fetch ⟨url, none⟩]) := by
  simp [safeFetch, hnet, statusOk]

theorem safeFetch_effects_ne_nil (net : Net) (url : String) (payload : Option JVal) :
    (safeFetch net url payload).2 ≠ [] := by
  cases h : net ⟨url, payload⟩ with
  | failed => simp [safeFetch, h]
  | response status body =>
    simp only [safeFetch, h]
    cases body <;> split_ifs <;> simp

theorem fetchAllModels_effects_ne_nil (net : Net) (base : String) :
    (fetchAllModels net base).2 ≠ [] := by
  have h := safeFetch_effects_ne_nil net (base ++ "/models") none
  have hk : (fetchModelKeys net base).2 = (safeFetch net (base ++ "/models") none).2 := by
    simp only [fetchModelKeys]
    split <;> rfl
  simp only [fetchAllModels]
  split_ifs <;> simp [hk, h]

theorem allOf_all_null {α : Type} (f : α → JVal × List Effect) (l : List α)
    (h : ∀ a ∈ l, (f a).1 = null) : (allOf f l).1 = List.replicate l.length null := by
  induction l with
  | nil => rfl
  | cons a rest ih =>
    simp only [allOf, List.length_cons, List.replicate_succ]
    rw [h a (List.mem_cons_self _ _), ih (fun x hx => h x (List.mem_cons_of_mem _ hx))]

/-- C5 (amended). For every `/dashboard` payload whose `alerts` and `stats` values are
both truthy (an empty array and an object of zeros included), `fetchDashboardData`
returns the payload after the single `/dashboard` request: no fan-out request is
issued. -/
theorem fetchDashboardData_prefers_aggregate (net : Net) (base : String) (status : Nat)
    (d : JVal) (hnet : net (dashboardRequest base) = .response status (some d))
    (hok : statusOk status = true)
    (ha : truthy (field d "alerts") = true) (hs : truthy (field d "stats") = true) :
    fetchDashboardData net base = (.ok d, [.fetch (dashboardRequest base)]) := by
  have hd : truthy d = true := by
    cases d <;> simp [field, truthy] at ha ⊢
  have hf := safeFetch_served net (base ++ "/dashboard") status d hnet hok
  simp [fetchDashboardData, hf, hd, ha, hs, dashboardRequest]

/-- Witness of C5 (amended): a payload with an empty alert list and all-zero
statistics is returned as it is, after one request. -/
theorem fetchDashboardData_prefers_aggregate_witness :
    truthy (field quietPayload "alerts") = true ∧ truthy (field quietPayload "stats") = true ∧
    fetchDashboardData (stubNet [(localBase ++ "/dashboard", quietPayload)]) localBase =
      (.ok quietPayload, [.fetch (dashboardRequest localBase)]) :=
  ⟨by decide, by decide,
   fetchDashboardData_prefers_aggregate _ localBase 200 quietPayload (by decide) (by decide)
     (by decide) (by decide)⟩

/-- Counterexample to C5 as stated: the payload `{alerts: [], stats: 0}` has both
keys present, yet `fetchDashboardData` goes on to request `/models` and the twelve
legacy routes and returns the fallback value. -/
theorem fetchDashboardData_zero_stats_counterexample :
    hasKey zeroStatsPayload "alerts" = true ∧ hasKey zeroStatsPayload "stats" = true ∧
    fetchDashboardData (stubNet [(localBase ++ "/dashboard", zeroStatsPayload)]) localBase =
      (.ok emptyDashboard,
       (["/dashboard", "/models"] ++ legacyModelRoutes).map
         (fun r => Effect.fetch ⟨localBase ++ r, none⟩)) := by
  decide

/-- C7. When the `/dashboard` aggregate is the empty object, no model key is
registered and each of the twelve legacy routes answers "not found",
`fetchDashboardData` returns exactly the all-default dashboard value. -/
theorem fetchDashboardData_empty_fallback (net : Net) (base : String) (status : Nat)
    (hnet : net (dashboardRequest base) = .response status (some (obj [])))
    (hok : statusOk status = true)
    (hkeys : (fetchModelKeys net base).1 = [])
    (hlegacy : ∀ route ∈ legacyModelRoutes,
      ∃ body, net ⟨base ++ route, none⟩ = .response 404 body) :
    (fetchDashboardData net base).1 = .ok emptyDashboard := by
  have hf := safeFetch_served net (base ++ "/dashboard") status (obj []) hnet hok
  have hall : (allOf (fun route => safeFetch net (base ++ route) none) legacyModelRoutes).1 =
      List.replicate legacyModelRoutes.length null := by
    apply allOf_all_null
    intro route hr
    obtain ⟨body, hb⟩ := hlegacy route hr
    rw [safeFetch_notFound net _ body hb]
  have hres : (fetchAllModels net base).1 = List.replicate legacyModelRoutes.length null := by
    simp only [fetchAllModels, hkeys, List.length_nil, if_true, hall]
  simp only [fetchDashboardData, hf, field, lookup, truthy, Bool.and_false, Bool.false_eq_true,
    if_false, hres]
  decide

/-- Witness of C7: a backend that serves only the empty aggregate. -/
theorem fetchDashboardData_empty_fallback_witness :
    (fetchDashboardData (stubNet [(localBase ++ "/dashboard", obj [])]) localBase).1 =
      .ok (obj [("alerts", arr []),
        ("stats", obj [("todayAttempts", num 0), ("topAttack", str "N/A"),
                       ("successRate", num 0), ("dailyTrends", arr [])])]) :=
  fetchDashboardData_empty_fallback _ localBase 200 (by decide) (by decide) (by decide)
    (fun route hr => ⟨none,
      (by decide : ∀ route ∈ legacyModelRoutes,
        stubNet [(localBase ++ "/dashboard", obj [])] ⟨localBase ++ route, none⟩ =
          .response 404 none) route hr⟩)

/-- C8. For the aggregate whose single alert is the SQL alert of the scenario,
`fetchDashboardData` returns the aggregate itself after the single `/dashboard`
request, `detectType` gives that alert the SQL injection label, and the alerts table
with level filter "all" and period filter "all" retains it. -/
theorem sql_scenario (P : Platform) (net : Net) (base : String) (now : Int) (status : Nat)
    (hnet : net (dashboardRequest base) = .response status (some sqlAggregate))
    (hok : statusOk status = true) :
    fetchDashboardData net base = (.ok sqlAggregate, [.fetch (dashboardRequest base)]) ∧
    field sqlAggregate "alerts" = arr [sqlAlert] ∧
    detectType P sqlAlert = .ok (str typeMap.sql) ∧
    tableFilter P now "all" "all" [sqlAlert] = .ok [sqlAlert] := by
  have hf := safeFetch_served net (base ++ "/dashboard") status sqlAggregate hnet hok
  refine ⟨?_, by decide, ?_, rfl⟩
  · simp only [fetchDashboardData, hf, dashboardRequest]
    rfl
  · have hl : P.toLowerCase "sql attack from model3" = "sql attack from model3" := by
      rw [P.toLowerCase_ascii _ (by decide)]
      decide
    have hm : member sqlAlert "message" = .ok (str "sql attack from model3") := by decide
    have ha : member sqlAlert "attack" = .ok undefined := by decide
    have hs : scanMessage "sql attack from model3" = typeMap.sql := by decide
    simp [detectType, ha, hm, truthy, orElse, callToLowerCase, hl, hs]

/-- Witness of C8 on the reference platform and a backend that serves the aggregate. -/
theorem sql_scenario_witness :
    fetchDashboardData (stubNet [(localBase ++ "/dashboard", sqlAggregate)]) localBase =
      (.ok sqlAggregate, [.fetch (dashboardRequest localBase)]) ∧
    field sqlAggregate "alerts" = arr [sqlAlert] ∧
    detectType refPlatform sqlAlert = .ok (str "حقن SQL") ∧
    tableFilter refPlatform sampleNow "all" "all" [sqlAlert] = .ok [sqlAlert] :=
  sql_scenario refPlatform _ localBase sampleNow 200 (by decide) (by decide)

/-! ### Export -/

theorem fetchAttackHistory_effects (net : Net) (base : String) (limit : Int) :
    ∀ e ∈ (fetchAttackHistory net base limit).2,
      (∃ r, e = .fetch r) ∨ (∃ what, e = .consoleError what) := by
  intro e he
  cases h : net ⟨base ++ "/attacks?limit=" ++ toString limit, none⟩ with
  | failed =>
    simp only [fetchAttackHistory, h, List.mem_cons, List.mem_singleton, List.mem_nil_iff,
      or_false] at he
    rcases he with rfl | rfl
    · exact Or.inl ⟨_, rfl⟩
    · exact Or.inr ⟨_, rfl⟩
  | response status body =>
    simp only [fetchAttackHistory, h] at he
    cases body <;> split_ifs at he <;>
      simp only [List.mem_cons, List.mem_singleton, List.mem_nil_iff, or_false] at he <;>
      rcases he with rfl | rfl <;>
      first
        | exact Or.inl ⟨_, rfl⟩
        | exact Or.inr ⟨_, rfl⟩

/-- C9. When the history retrieval yields the empty sequence or `null`,
`handleDownloadReport` performs, after the retrieval, the single effect of notifying
the user with the "no records" message: no CSV text is built, no blob or object URL
is allocated and no save is triggered. -/
theorem handleDownloadReport_empty (net : Net) (base : String) (now : Int)
    (h : (fetchAttackHistory net base 1000).1 = arr [] ∨
         (fetchAttackHistory net base 1000).1 = null) :
    handleDownloadReport net base now =
      (fetchAttackHistory net base 1000).2 ++ [.alert noRecordsMsg] ∧
    ∀ e ∈ handleDownloadReport net base now,
      (∃ r, e = .fetch r) ∨ (∃ what, e = .consoleError what) ∨ e = .alert noRecordsMsg := by
  have heq : handleDownloadReport net base now =
      (fetchAttackHistory net base 1000).2 ++ [.alert noRecordsMsg] := by
    rcases h with h | h <;> simp [handleDownloadReport, h, truthy, lengthOf]
  refine ⟨heq, ?_⟩
  intro e he
  rw [heq, List.mem_append] at he
  rcases he with he | he
  · rcases fetchAttackHistory_effects net base 1000 e he with hr | hc
    · exact Or.inl hr
    · exact Or.inr (Or.inl hc)
  · exact Or.inr (Or.inr (by simpa using he))

/-- Witness of C9: a backend with an empty attack history. -/
theorem handleDownloadReport_empty_witness :
    (fetchAttackHistory (stubNet [(localBase ++ "/attacks?limit=1000", arr [])])
      localBase 1000).1 = arr [] ∧
    handleDownloadReport (stubNet [(localBase ++ "/attacks?limit=1000", arr [])])
      localBase sampleNow =
      [.fetch ⟨localBase ++ "/attacks?limit=1000", none⟩, .alert noRecordsMsg] :=
  ⟨by decide,
   (handleDownloadReport_empty (stubNet [(localBase ++ "/attacks?limit=1000", arr [])])
      localBase sampleNow (Or.inl (by decide))).1⟩

/-- C10 (amended). With `d` the value `safeFetch` yields for `/dashboard`:
`fetchDashboardData` returns `d` itself, after that single request, if and only if
`d` is not `null` and both `d.alerts` and `d.stats` are truthy; for every other `d`
it goes through `fetchAllModels` and its outcome is the client-side aggregation of the
fan-out results, which is a freshly built `{alerts, stats}` whenever the `alerts`
value of the first fan-out result is absent, `null`, an array or a text. -/
theorem fetchDashboardData_selection (net : Net) (base : String) :
    (fetchDashboardData net base =
        (.ok (safeFetch net (base ++ "/dashboard") none).1,
         (safeFetch net (base ++ "/dashboard") none).2) ↔
      ((safeFetch net (base ++ "/dashboard") none).1 ≠ null ∧
       truthy (field (safeFetch net (base ++ "/dashboard") none).1 "alerts") = true ∧
       truthy (field (safeFetch net (base ++ "/dashboard") none).1 "stats") = true)) ∧
    (¬ ((safeFetch net (base ++ "/dashboard") none).1 ≠ null ∧
        truthy (field (safeFetch net (base ++ "/dashboard") none).1 "alerts") = true ∧
        truthy (field (safeFetch net (base ++ "/dashboard") none).1 "stats") = true) →
      fetchDashboardData net base =
        (fallbackAggregate (fetchAllModels net base).1,
         (safeFetch net (base ++ "/dashboard") none).2 ++ (fetchAllModels net base).2) ∧
      (sliceableOrAbsent (optGet (index (fetchAllModels net base).1 0) "alerts") = true →
        ∃ alerts stats, (fetchDashboardData net base).1 =
          .ok (obj [("alerts", alerts), ("stats", stats)]))) := by
  generalize hd : safeFetch net (base ++ "/dashboard") none = data
  have hcond : (truthy data.1 && truthy (field data.1 "alerts") &&
      truthy (field data.1 "stats")) = true ↔
      (data.1 ≠ null ∧ truthy (field data.1 "alerts") = true ∧
        truthy (field data.1 "stats") = true) := by
    cases data.1 <;> simp [truthy, field]
  have hfall : ¬ (data.1 ≠ null ∧ truthy (field data.1 "alerts") = true ∧
      truthy (field data.1 "stats") = true) →
      fetchDashboardData net base =
        (fallbackAggregate (fetchAllModels net base).1, data.2 ++ (fetchAllModels net base).2) := by
    intro hn
    have hb : ¬ ((truthy data.1 && truthy (field data.1 "alerts") &&
        truthy (field data.1 "stats")) = true) := fun h => hn (hcond.1 h)
    simp only [fetchDashboardData, hd, if_neg hb]
  refine ⟨⟨?_, ?_⟩, ?_⟩
  · intro h
    by_contra hn
    rw [hfall hn] at h
    have h2 : data.2 ++ (fetchAllModels net base).2 = data.2 := congrArg Prod.snd h
    exact fetchAllModels_effects_ne_nil net base (by simpa using h2)
  · intro h
    simp only [fetchDashboardData, hd, if_pos (hcond.2 h)]
  · intro hn
    refine ⟨hfall hn, ?_⟩
    intro hs
    rw [hfall hn]
    simp only [fallbackAggregate]
    generalize optGet (index (fetchAllModels net base).1 0) "alerts" = v at hs
    cases v <;> simp [sliceableOrAbsent] at hs <;>
      simp [orDefault, nullish, callSlice50]

/-- Witness of C10 (amended): for the payload `{alerts: [], stats: 0}` the fallback
path is taken and yields the all-default dashboard value. -/
theorem fetchDashboardData_selection_witness :
    (safeFetch (stubNet [(localBase ++ "/dashboard", zeroStatsPayload)])
      (localBase ++ "/dashboard") none).1 = zeroStatsPayload ∧
    truthy (field zeroStatsPayload "stats") = false ∧
    ∃ alerts stats,
      (fetchDashboardData (stubNet [(localBase ++ "/dashboard", zeroStatsPayload)])
        localBase).1 = .ok (obj [("alerts", alerts), ("stats", stats)]) :=
  ⟨by decide, by decide,
   ((fetchDashboardData_selection (stubNet [(localBase ++ "/dashboard", zeroStatsPayload)])
      localBase).2 (by decide)).2 (by decide)⟩

/-- Counterexample to C10 as stated: the aggregate is the empty object, so the
fallback path is taken, but the single registered model reports the number 5 as its
alert list and `fetchDashboardData` raises instead of returning `{alerts, stats}`. -/
theorem fetchDashboardData_fallback_raises_counterexample :
    (safeFetch numericAlertsNet (localBase ++ "/dashboard") none).1 = obj [] ∧
    truthy (field (obj []) "alerts") = false ∧
    (fetchDashboardData numericAlertsNet localBase).1 =
      .error (.typeError "slice is not a function") := by
  decide

/-! ### The CSV reader on exported text -/

theorem pushChars_cons_row (f g : List Char) (fs : List (List Char))
    (rows : List (List (List Char))) :
    pushChars f ((g :: fs) :: rows) = ((f ++ g) :: fs) :: rows := by
  induction f with
  | nil => rfl
  | cons c f ih =>
    show pushChar c (pushChars f ((g :: fs) :: rows)) = _
    rw [ih]
    rfl

theorem csvRows_plain_run (f rest : List Char) (h : f.all plainChar = true) :
    csvRows .plain (f ++ rest) = pushChars f (csvRows .plain rest) := by
  induction f with
  | nil => rfl
  | cons c f ih =>
    simp only [List.all_cons, Bool.and_eq_true] at h
    have hc := h.1
    simp only [plainChar, Bool.and_eq_true, decide_eq_true_eq] at hc
    have e : csvRows .plain (c :: (f ++ rest)) = pushChar c (csvRows .plain (f ++ rest)) := by
      simp only [csvRows, if_neg hc.1.1, if_neg hc.1.2, if_neg hc.2]
    rw [List.cons_append, e, ih h.2]
    rfl

theorem csvRows_closing_delimiter (rest : List Char) (h : atDelimiter rest = true) :
    csvRows .closing rest = csvRows .plain rest := by
  cases rest with
  | nil => rfl
  | cons c cs =>
    simp only [atDelimiter, Bool.or_eq_true, decide_eq_true_eq] at h
    rcases h with rfl | rfl
    · simp [csvRows]
    · simp [csvRows]

theorem csvRows_quoted_run (s rest : List Char) :
    csvRows .quoted (escapeQuotes s ++ '"' :: rest) = pushChars s (csvRows .closing rest) := by
  induction s with
  | nil => simp [escapeQuotes, csvRows, pushChars]
  | cons c s ih =>
    by_cases hc : c = '"'
    · subst hc
      have e : csvRows .quoted (escapeQuotes ('"' :: s) ++ '"' :: rest) =
          pushChar '"' (csvRows .quoted (escapeQuotes s ++ '"' :: rest)) := by
        simp [escapeQuotes, csvRows]
      rw [e, ih]
      rfl
    · have e : csvRows .quoted (escapeQuotes (c :: s) ++ '"' :: rest) =
          pushChar c (csvRows .quoted (escapeQuotes s ++ '"' :: rest)) := by
        simp [escapeQuotes, csvRows, hc]
      rw [e, ih]
      rfl

/-! ### Cells, rows and texts -/

theorem digitChar_plain : ∀ m, m < 10 → plainChar (Nat.digitChar m) = true := by
  decide

theorem toDigitsCore_plain (fuel n : Nat) (ds : List Char) (h : ds.all plainChar = true) :
    (Nat.toDigitsCore 10 fuel n ds).all plainChar = true := by
  induction fuel generalizing n ds with
  | zero => simpa [Nat.toDigitsCore] using h
  | succ fuel ih =>
    have hd : plainChar (Nat.digitChar (n % 10)) = true :=
      digitChar_plain _ (Nat.mod_lt _ (by decide))
    have hds : (Nat.digitChar (n % 10) :: ds).all plainChar = true := by
      simp only [List.all_cons, hd, h, Bool.and_self]
    simp only [Nat.toDigitsCore]
    split_ifs
    · exact hds
    · exact ih _ _ hds

theorem natRepr_plain (n : Nat) : (toString n).data.all plainChar = true := by
  show (Nat.toDigits 10 n).all plainChar = true
  exact toDigitsCore_plain _ _ _ rfl

theorem intRepr_plain (n : Int) : (toString n).data.all plainChar = true := by
  cases n with
  | ofNat m => exact natRepr_plain m
  | negSucc m =>
    show ("-" ++ toString (Nat.succ m)).data.all plainChar = true
    simp only [String.data_append, List.all_append, natRepr_plain, Bool.and_true]
    decide

theorem csvRows_row (cells : List (List Char × List Char)) (hne : cells ≠ [])
    (hcells : ∀ c ∈ cells, ∀ rest, atDelimiter rest = true →
      csvRows .plain (c.1 ++ rest) = pushChars c.2 (csvRows .plain rest))
    (rest : List Char) (tail : List (List (List Char))) (hrest : atDelimiter rest = true)
    (htail : csvRows .plain rest = [[]] :: tail) :
    csvRows .plain (joinChars [','] (cells.map Prod.fst) ++ rest) =
      cells.map Prod.snd :: tail := by
  induction cells with
  | nil => exact absurd rfl hne
  | cons c cs ih =>
    cases cs with
    | nil =>
      simp only [List.map_cons, List.map_nil, joinChars, List.append_nil]
      rw [hcells c (List.mem_cons_self _ _) rest hrest, htail, pushChars_cons_row,
        List.append_nil]
    | cons d ds =>
      have ih' := ih (by simp) (fun x hx => hcells x (List.mem_cons_of_mem _ hx))
      have e : joinChars [','] ((c :: d :: ds).map Prod.fst) ++ rest =
          c.1 ++ (',' :: (joinChars [','] ((d :: ds).map Prod.fst) ++ rest)) := by
        simp [joinChars]
      rw [e, hcells c (List.mem_cons_self _ _) _ (by simp [atDelimiter])]
      have e2 : csvRows .plain (',' :: (joinChars [','] ((d :: ds).map Prod.fst) ++ rest)) =
          pushField (csvRows .plain (joinChars [','] ((d :: ds).map Prod.fst) ++ rest)) := by
        simp [csvRows]
      rw [e2, ih']
      simp only [pushField, pushChars_cons_row, List.append_nil, List.map_cons]

theorem csvRows_rows (rows : List (List (List Char × List Char))) (hne : rows ≠ [])
    (hrows : ∀ r ∈ rows, r ≠ [] ∧ ∀ c ∈ r, ∀ rest, atDelimiter rest = true →
      csvRows .plain (c.1 ++ rest) = pushChars c.2 (csvRows .plain rest)) :
    csvRows .plain (joinChars ['\n'] (rows.map (fun r => joinChars [','] (r.map Prod.fst)))) =
      rows.map (fun r => r.map Prod.snd) := by
  induction rows with
  | nil => exact absurd rfl hne
  | cons r rs ih =>
    obtain ⟨hr, hc⟩ := hrows r (List.mem_cons_self _ _)
    cases rs with
    | nil =>
      simp only [List.map_cons, List.map_nil, joinChars]
      exact csvRows_row r hr hc [] [] rfl rfl
    | cons r2 more =>
      have ih' := ih (by simp) (fun x hx => hrows x (List.mem_cons_of_mem _ hx))
      have e : joinChars ['\n'] ((r :: r2 :: more).map
          (fun r => joinChars [','] (r.map Prod.fst))) =
          joinChars [','] (r.map Prod.fst) ++ ('\n' :: joinChars ['\n'] ((r2 :: more).map
            (fun r => joinChars [','] (r.map Prod.fst)))) := by
        simp [joinChars]
      rw [e]
      have htail : csvRows .plain ('\n' :: joinChars ['\n'] ((r2 :: more).map
          (fun r => joinChars [','] (r.map Prod.fst)))) =
          [[]] :: (r2 :: more).map (fun r => r.map Prod.snd) := by
        rw [← ih']
        simp [csvRows, pushRow]
      rw [csvRows_row r hr hc _ ((r2 :: more).map (fun r => r.map Prod.snd))
        (by simp [atDelimiter]) htail]
      rfl

theorem cell_reads (v : JVal) (h : isCsvScalar v = true) (rest : List Char)
    (hd : atDelimiter rest = true) :
    csvRows .plain ((toStr (quoteValue v)).data ++ rest) =
      pushChars (toStr v).data (csvRows .plain rest) := by
  cases v with
  | str s =>
    have e : (toStr (quoteValue (str s))).data ++ rest =
        '"' :: (escapeQuotes s.data ++ '"' :: rest) := by
      simp [quoteValue, toStr]
    rw [e]
    have e2 : csvRows .plain ('"' :: (escapeQuotes s.data ++ '"' :: rest)) =
        csvRows .quoted (escapeQuotes s.data ++ '"' :: rest) := by
      simp [csvRows]
    rw [e2, csvRows_quoted_run, csvRows_closing_delimiter rest hd]
    rfl
  | num n =>
    exact csvRows_plain_run _ rest (intRepr_plain n)
  | bool b =>
    cases b
    · exact csvRows_plain_run _ rest (by decide)
    · exact csvRows_plain_run _ rest (by decide)
  | undefined => simp [isCsvScalar] at h
  | null => simp [isCsvScalar] at h
  | arr _ => simp [isCsvScalar] at h
  | obj _ => simp [isCsvScalar] at h

theorem joinWith_cons (sep : String) (x : JVal) (rest : List JVal)
    (hx : nullish x = false) :
    joinWith sep (x :: rest) =
      toStr x ++ (match rest with
        | [] => ""
        | _ :: _ => sep ++ joinWith sep rest) := by
  cases x <;> simp [nullish] at hx <;> rfl

theorem joinWith_data (sep : String) (items : List JVal)
    (h : ∀ v ∈ items, nullish v = false) :
    (joinWith sep items).data = joinChars sep.data (items.map (fun v => (toStr v).data)) := by
  induction items with
  | nil => simp [joinWith, joinChars]
  | cons x rest ih =>
    have hx : nullish x = false := h x (List.mem_cons_self _ _)
    have ih' := ih (fun v hv => h v (List.mem_cons_of_mem _ hv))
    rw [joinWith_cons sep x rest hx]
    cases rest with
    | nil => simp [joinChars]
    | cons y ys =>
      simp only [String.data_append, ih', List.map_cons, joinChars]

theorem mapE_eq_map {α β : Type} (f : α → Except JsError β) (g : α → β) (l : List α)
    (h : ∀ a ∈ l, f a = .ok (g a)) : mapE f l = .ok (l.map g) := by
  induction l with
  | nil => rfl
  | cons a rest ih =>
    simp only [mapE, h a (List.mem_cons_self _ _),
      ih (fun x hx => h x (List.mem_cons_of_mem _ hx)), List.map_cons]

theorem isFlatRecord_obj {r : JVal} (h : isFlatRecord r = true) :
    ∃ props, r = obj props ∧ props ≠ [] ∧ ∀ kv ∈ props, isCsvScalar kv.2 = true := by
  cases r <;> simp [isFlatRecord] at h
  case obj props =>
    refine ⟨props, rfl, ?_, ?_⟩
    · intro he
      simp [he] at h
    · intro kv hkv
      exact h.2 kv.1 kv.2 hkv

theorem isCsvScalar_quote_not_nullish {v : JVal} (h : isCsvScalar v = true) :
    nullish (quoteValue v) = false := by
  cases v <;> simp [isCsvScalar] at h <;> simp [quoteValue, nullish]

theorem csvRow_flat {r : JVal} (h : isFlatRecord r = true) :
    csvRow r = .ok (rowText r) ∧
      (rowText r).data = joinChars [','] ((cellsOf r).map Prod.fst) := by
  obtain ⟨props, rfl, -, hs⟩ := isFlatRecord_obj h
  refine ⟨rfl, ?_⟩
  show (joinWith "," ((props.map Prod.snd).map quoteValue)).data = _
  rw [joinWith_data]
  · simp [cellsOf, List.map_map, Function.comp_def]
  · intro v hv
    simp only [List.mem_map] at hv
    obtain ⟨w, ⟨kv, hkv, rfl⟩, rfl⟩ := hv
    exact isCsvScalar_quote_not_nullish (hs kv hkv)

theorem joinChars_pair (sep h x : List Char) (xs : List (List Char)) :
    joinChars sep [h, joinChars sep (x :: xs)] = joinChars sep (h :: x :: xs) := by
  simp [joinChars]

theorem csvContent_flat (first : JVal) (rest : List JVal)
    (hflat : ∀ r ∈ first :: rest, isFlatRecord r = true) :
    ∃ csv : String, csvContent (arr (first :: rest)) = .ok csv ∧
      csv.data = joinChars ['\n']
        ((((keysOf first).map (fun k => (k.data, k.data))) :: (first :: rest).map cellsOf).map
          (fun r => joinChars [','] (r.map Prod.fst))) := by
  obtain ⟨props, hfirst, -, -⟩ := isFlatRecord_obj (hflat first (List.mem_cons_self _ _))
  have hkeys : objectKeys (firstOf (arr (first :: rest))) = .ok (keysOf first) := by
    subst hfirst
    rfl
  have hrows : mapE csvRow (first :: rest) = .ok ((first :: rest).map rowText) :=
    mapE_eq_map csvRow rowText _ (fun r hr => (csvRow_flat (hflat r hr)).1)
  have hcsv : csvContent (arr (first :: rest)) =
      .ok (joinWith "\n" [str (joinWith "," ((keysOf first).map str)),
        str (joinWith "\n" (((first :: rest).map rowText).map str))]) := by
    simp only [csvContent, hkeys, hrows]
  refine ⟨_, hcsv, ?_⟩
  have hhead : (joinWith "," ((keysOf first).map str)).data =
      joinChars [','] (((keysOf first).map (fun k => (k.data, k.data))).map Prod.fst) := by
    rw [joinWith_data _ _ (by simp [nullish])]
    simp [List.map_map, Function.comp_def, toStr]
  have hbody : (joinWith "\n" (((first :: rest).map rowText).map str)).data =
      joinChars ['\n'] (((first :: rest).map cellsOf).map
        (fun r => joinChars [','] (r.map Prod.fst))) := by
    rw [joinWith_data _ _ (by simp [nullish])]
    simp only [List.map_map]
    congr 1
    apply List.map_congr_left
    intro r hr
    simp only [Function.comp_def, toStr]
    exact (csvRow_flat (hflat r hr)).2
  rw [joinWith_data _ _ (by simp [nullish])]
  show joinChars ['\n'] [(joinWith "," ((keysOf first).map str)).data,
    (joinWith "\n" (((first :: rest).map rowText).map str)).data] = _
  rw [hhead, hbody]
  exact joinChars_pair _ _ _ _

theorem cellsOf_values (r : JVal) :
    (cellsOf r).map Prod.snd = (stringForms r).map (fun kv => kv.2.data) := by
  cases r <;> simp [cellsOf, stringForms, List.map_map, Function.comp_def]

theorem zip_keys_forms (r : JVal) :
    (keysOf r).zip (((stringForms r).map (fun kv => kv.2.data)).map String.mk) =
      stringForms r := by
  cases r with
  | obj props =>
    simp only [keysOf, stringForms, List.map_map, Function.comp_def]
    induction props with
    | nil => rfl
    | cons kv rest ih => simp only [List.map_cons, List.zip_cons_cons, ih]
  | _ => rfl

/-- C6 (amended). For every non-empty sequence of flat records (objects with at least
one property whose values are text, numbers or booleans) such that the keys of the
first record contain no comma, double quote or line feed, `handleDownloadReport`
builds a CSV text that the reader splits into the header row (the keys of the first
record) followed by exactly one row per record whose fields are the string forms of
the record's values, the doubling of double quotes being undone; and when every
record has the keys of the first, re-parsing by the header row gives back every
record as its key–string-form pairs. That text is the content of the blob
`handleDownloadReport` creates when the history retrieval yields these records. -/
theorem csv_roundtrip (first : JVal) (rest : List JVal)
    (hflat : ∀ r ∈ first :: rest, isFlatRecord r = true)
    (hplain : ∀ k ∈ keysOf first, plainKey k = true) :
    ∃ csv : String, csvContent (arr (first :: rest)) = .ok csv ∧
      csvRows .plain csv.data =
        (keysOf first).map String.data ::
          (first :: rest).map (fun r => (stringForms r).map (fun kv => kv.2.data)) ∧
      (reparseByHeader csv).length = (first :: rest).length ∧
      ((∀ r ∈ rest, keysOf r = keysOf first) →
        reparseByHeader csv = (first :: rest).map stringForms) ∧
      (∀ (net : Net) (base : String) (now : Int),
        (fetchAttackHistory net base 1000).1 = arr (first :: rest) →
        Effect.newBlob csv ∈ handleDownloadReport net base now) := by
  obtain ⟨csv, hcsv, hdata⟩ := csvContent_flat first rest hflat
  have hrows : csvRows .plain csv.data =
      (keysOf first).map String.data ::
        (first :: rest).map (fun r => (stringForms r).map (fun kv => kv.2.data)) := by
    rw [hdata, csvRows_rows _ (by simp)]
    · simp only [List.map_cons, List.map_map, Function.comp_def, cellsOf_values]
    · intro row hrow
      simp only [List.mem_cons, List.mem_map] at hrow
      rcases hrow with rfl | ⟨r, hr, rfl⟩
      · obtain ⟨props, hfirst, hne, -⟩ := isFlatRecord_obj (hflat first (List.mem_cons_self _ _))
        refine ⟨?_, ?_⟩
        · subst hfirst
          simpa [keysOf] using hne
        · intro c hc tail _
          simp only [List.mem_map] at hc
          obtain ⟨k, hk, rfl⟩ := hc
          exact csvRows_plain_run _ _ (hplain k hk)
      · obtain ⟨props, rfl, hne, hs⟩ := isFlatRecord_obj (hflat r (by simpa using hr))
        refine ⟨by simpa [cellsOf] using hne, ?_⟩
        intro c hc tail htail
        simp only [cellsOf, List.mem_map] at hc
        obtain ⟨kv, hkv, rfl⟩ := hc
        exact cell_reads kv.2 (hs kv hkv) tail htail
  have hre : reparseByHeader csv =
      (first :: rest).map (fun r =>
        (keysOf first).zip (((stringForms r).map (fun kv => kv.2.data)).map String.mk)) := by
    simp only [reparseByHeader, hrows, List.map_map, Function.comp_def]
    simp
  refine ⟨csv, hcsv, hrows, by simp [hre], ?_, ?_⟩
  · intro hkeys
    rw [hre]
    apply List.map_congr_left
    intro r hr
    have hk : keysOf r = keysOf first := by
      rcases List.mem_cons.1 hr with rfl | hr'
      · rfl
      · exact hkeys r hr'
    rw [← hk]
    exact zip_keys_forms r
  · intro net base now hhist
    have hlen : truthy (lengthOf (arr (first :: rest))) = true := by
      simp [lengthOf, truthy]
      omega
    have hcond : ¬ ((!truthy (arr (first :: rest)) ||
        !truthy (lengthOf (arr (first :: rest)))) = true) := by
      rw [hlen]
      simp [truthy]
    simp only [handleDownloadReport, hhist, if_neg hcond, hcsv]
    simp

/-- Witness of C6 (amended): two records, the first with a quote, a comma and a line
feed in its message; the export and its re-parse are evaluated. -/
theorem csv_roundtrip_witness :
    csvContent (arr sampleRecords) =
      .ok "message,level,count\n\"say \"\"hi\"\", then\nleave\",\"high\",-3\n\"\",\"low\",12" ∧
    reparseByHeader
        "message,level,count\n\"say \"\"hi\"\", then\nleave\",\"high\",-3\n\"\",\"low\",12" =
      [[("message", "say \"hi\", then\nleave"), ("level", "high"), ("count", "-3")],
       [("message", ""), ("level", "low"), ("count", "12")]] ∧
    ∃ csv : String, csvContent (arr sampleRecords) = .ok csv ∧
      csvRows .plain csv.data =
        (keysOf (obj [("message", str "say \"hi\", then\nleave"), ("level", str "high"),
          ("count", num (-3))])).map String.data ::
          sampleRecords.map (fun r => (stringForms r).map (fun kv => kv.2.data)) ∧
      (reparseByHeader csv).length = sampleRecords.length ∧
      ((∀ r ∈ [obj [("message", str ""), ("level", str "low"), ("count", num 12)]],
          keysOf r = keysOf (obj [("message", str "say \"hi\", then\nleave"),
            ("level", str "high"), ("count", num (-3))])) →
        reparseByHeader csv = sampleRecords.map stringForms) ∧
      (∀ (net : Net) (base : String) (now : Int),
        (fetchAttackHistory net base 1000).1 = arr sampleRecords →
        Effect.newBlob csv ∈ handleDownloadReport net base now) :=
  ⟨by decide, by decide, csv_roundtrip _ _ (by decide) (by decide)⟩

/-- Counterexample to C6 as stated: a record with a nested array, a record with a
`null` value, a record whose key contains a comma and a record without properties are
each exported to a CSV text whose re-parse by header differs from the string forms of
the record's values. -/
theorem csv_roundtrip_counterexample :
    (csvContent (arr [taggedRecord]) = .ok "message,tags\n\"x\",a,b" ∧
      reparseByHeader "message,tags\n\"x\",a,b" = [[("message", "x"), ("tags", "a")]] ∧
      reparseByHeader "message,tags\n\"x\",a,b" ≠ [taggedRecord].map stringForms) ∧
    (csvContent (arr [nullSourceRecord]) = .ok "message,source\n\"x\"," ∧
      reparseByHeader "message,source\n\"x\"," = [[("message", "x"), ("source", "")]] ∧
      reparseByHeader "message,source\n\"x\"," ≠ [nullSourceRecord].map stringForms) ∧
    (csvContent (arr [commaKeyRecord]) = .ok "a,b\n\"1\"" ∧
      reparseByHeader "a,b\n\"1\"" = [[("a", "1")]] ∧
      reparseByHeader "a,b\n\"1\"" ≠ [commaKeyRecord].map stringForms) ∧
    (csvContent (arr [obj []]) = .ok "\n" ∧
      reparseByHeader "\n" = [[("", "")]] ∧
      reparseByHeader "\n" ≠ [obj []].map stringForms) := by
  decide

/-! ### The fallback aggregation -/

theorem fetchDashboardData_fallback_eq (net : Net) (base : String)
    (h : ¬ ((truthy (safeFetch net (base ++ "/dashboard") none).1 &&
        truthy (field (safeFetch net (base ++ "/dashboard") none).1 "alerts") &&
        truthy (field (safeFetch net (base ++ "/dashboard") none).1 "stats")) = true)) :
    fetchDashboardData net base =
      (fallbackAggregate (fetchAllModels net base).1,
       (safeFetch net (base ++ "/dashboard") none).2 ++ (fetchAllModels net base).2) := by
  simp only [fetchDashboardData, if_neg h]

theorem fallbackAggregate_congr (results results' : List JVal)
    (h : ∀ i, i < 5 → index results' i = index results i) :
    fallbackAggregate results' = fallbackAggregate results := by
  simp only [fallbackAggregate, h 0 (by decide), h 1 (by decide), h 2 (by decide),
    h 3 (by decide), h 4 (by decide)]

theorem fallbackAggregate_returns_iff (results : List JVal) :
    (∃ out, fallbackAggregate results = .ok out) ↔
      sliceableOrAbsent (optGet (index results 0) "alerts") = true := by
  unfold fallbackAggregate
  generalize optGet (index results 0) "alerts" = v
  cases v <;> simp [sliceableOrAbsent, orDefault, nullish, callSlice50]

theorem fallbackAggregate_fields (results : List JVal) (out : JVal)
    (h : fallbackAggregate results = .ok out) :
    out = obj [("alerts", field out "alerts"), ("stats", field out "stats")] ∧
    field out "stats" = obj [
      ("todayAttempts", orDefault (optGet (index results 1) "todayAttempts") (num 0)),
      ("topAttack", orDefault (optGet (index results 2) "topAttack") (str "N/A")),
      ("successRate", orDefault (optGet (index results 3) "successRate") (num 0)),
      ("dailyTrends", orDefault (optGet (index results 4) "dailyTrends") (arr []))] ∧
    callSlice50 (orDefault (optGet (index results 0) "alerts") (arr [])) =
      .ok (field out "alerts") := by
  unfold fallbackAggregate at h
  cases hs : callSlice50 (orDefault (optGet (index results 0) "alerts") (arr [])) with
  | error e => simp [hs] at h
  | ok alerts =>
    simp only [hs, Except.ok.injEq] at h
    subst h
    simp [field, lookup]

/-- C11. On the fallback path the outcome of `fetchDashboardData` is the aggregation
of the fan-out results, and that aggregation reads the results at indices 0 to 4
only: two result arrays that agree there give the same outcome, so changing or
adding results at index 5 or higher changes nothing. The aggregation returns exactly
when `results[0].alerts` is absent, `null`, an array or a text, and for every results
array on which it returns, whatever `results[0]` is, the output is `{alerts, stats}`
with `stats.todayAttempts` read from `results[1]`, `stats.topAttack` from `results[2]`,
`stats.successRate` from `results[3]` and `stats.dailyTrends` from `results[4]`
(each replaced by its default when absent or `null`), and `alerts` read from
`results[0].alerts`: empty when that is absent or `null`, its first fifty characters
when it is a text of single-unit characters, and, when it is an array of `n`
elements, its first `min(50, n)` elements in their original order. -/
theorem fallbackAggregate_positional (results : List JVal) :
    (∀ results', (∀ i, i < 5 → index results' i = index results i) →
      fallbackAggregate results' = fallbackAggregate results) ∧
    ((∃ out, fallbackAggregate results = .ok out) ↔
      sliceableOrAbsent (optGet (index results 0) "alerts") = true) ∧
    (∀ out, fallbackAggregate results = .ok out →
      out = obj [("alerts", field out "alerts"), ("stats", field out "stats")] ∧
      field out "stats" = obj [
        ("todayAttempts", orDefault (optGet (index results 1) "todayAttempts") (num 0)),
        ("topAttack", orDefault (optGet (index results 2) "topAttack") (str "N/A")),
        ("successRate", orDefault (optGet (index results 3) "successRate") (num 0)),
        ("dailyTrends", orDefault (optGet (index results 4) "dailyTrends") (arr []))] ∧
      (nullish (optGet (index results 0) "alerts") = true → field out "alerts" = arr []) ∧
      (∀ items, optGet (index results 0) "alerts" = arr items →
        field out "alerts" = arr (items.take 50)) ∧
      (∀ s, optGet (index results 0) "alerts" = str s → singleUnits s = true →
        field out "alerts" = str ⟨s.data.take 50⟩)) ∧
    (∀ items, optGet (index results 0) "alerts" = arr items →
      fallbackAggregate results =
        .ok (obj [("alerts", arr (items.take 50)),
          ("stats", obj [
            ("todayAttempts", orDefault (optGet (index results 1) "todayAttempts") (num 0)),
            ("topAttack", orDefault (optGet (index results 2) "topAttack") (str "N/A")),
            ("successRate", orDefault (optGet (index results 3) "successRate") (num 0)),
            ("dailyTrends", orDefault (optGet (index results 4) "dailyTrends") (arr []))])]) ∧
      (items.take 50).length = min 50 items.length ∧
      (items.take 50) <+: items) ∧
    (∀ (net : Net) (base : String),
      ¬ ((truthy (safeFetch net (base ++ "/dashboard") none).1 &&
          truthy (field (safeFetch net (base ++ "/dashboard") none).1 "alerts") &&
          truthy (field (safeFetch net (base ++ "/dashboard") none).1 "stats")) = true) →
      (fetchDashboardData net base).1 = fallbackAggregate (fetchAllModels net base).1) := by
  refine ⟨fun results' h => fallbackAggregate_congr results results' h,
    fallbackAggregate_returns_iff results, ?_, ?_, ?_⟩
  · intro out hout
    obtain ⟨hshape, hstats, hslice⟩ := fallbackAggregate_fields results out hout
    refine ⟨hshape, hstats, ?_, ?_, ?_⟩
    · intro hn
      simpa [orDefault, hn, callSlice50] using hslice.symm
    · intro items hi
      simpa [orDefault, hi, nullish, callSlice50] using hslice.symm
    · intro s hs _
      simpa [orDefault, hs, nullish, callSlice50] using hslice.symm
  · intro items h
    refine ⟨?_, by simp, List.take_prefix _ _⟩
    simp [fallbackAggregate, h, orDefault, nullish, callSlice50]
  · intro net base h
    rw [fetchDashboardData_fallback_eq net base h]

/-- Witness of C11: seven results; the outcome takes one field from each of the
first five and is the same when the last two are dropped. With no first result and
`todayAttempts: 7` in the second, the statistics still hold the 7. -/
theorem fallbackAggregate_positional_witness :
    fallbackAggregate sampleResults =
      .ok (obj [("alerts", arr [sqlAlert, lowAlert, weekAlert]),
        ("stats", obj [("todayAttempts", num 7), ("topAttack", str "XSS"),
                       ("successRate", num 64), ("dailyTrends", arr [])])]) ∧
    fallbackAggregate (sampleResults.take 5) = fallbackAggregate sampleResults ∧
    fallbackAggregate offsetResults =
      .ok (obj [("alerts", arr []),
        ("stats", obj [("todayAttempts", num 7), ("topAttack", str "N/A"),
                       ("successRate", num 0), ("dailyTrends", arr [])])]) ∧
    field (obj [("alerts", arr []),
        ("stats", obj [("todayAttempts", num 7), ("topAttack", str "N/A"),
                       ("successRate", num 0), ("dailyTrends", arr [])])]) "stats" =
      obj [("todayAttempts", num 7), ("topAttack", str "N/A"),
           ("successRate", num 0), ("dailyTrends", arr [])] :=
  ⟨by decide,
   (fallbackAggregate_positional sampleResults).1 (sampleResults.take 5) (by decide),
   by decide,
   (((fallbackAggregate_positional offsetResults).2.2.1 _ (by decide)).2.1).trans (by decide)⟩

theorem orDefault_of_nullish {v d : JVal} (h : nullish v = true) : orDefault v d = d := by
  simp [orDefault, h]

theorem orDefault_of_present {v d : JVal} (h : nullish v = false) : orDefault v d = v := by
  simp [orDefault, h]

/-- C12 (amended). On the fallback path, for every array of fan-out results whose
first result has an `alerts` value that is absent, `null`, an array or a text,
`fetchDashboardData` does not fail and returns the shape `{alerts, stats}` with the
four statistics fields; each statistics field equals its default (`0`, `'N/A'`, `0`,
`[]`) whenever the result at its source index is absent, `null` or lacks the field,
and otherwise is the value received there, passed through whatever its type;
`alerts` is the empty sequence when `results[0]` is absent, `null` or lacks `alerts`,
the first fifty elements of `results[0].alerts` when that is an array, and its first
fifty characters when it is a text of single-unit characters. -/
theorem fallbackAggregate_defaults (results : List JVal)
    (h : sliceableOrAbsent (optGet (index results 0) "alerts") = true) :
    ∃ alerts todayAttempts topAttack successRate dailyTrends,
      fallbackAggregate results =
        .ok (obj [("alerts", alerts),
          ("stats", obj [("todayAttempts", todayAttempts), ("topAttack", topAttack),
                         ("successRate", successRate), ("dailyTrends", dailyTrends)])]) ∧
      (lacksField results 0 "alerts" = true → alerts = arr []) ∧
      (∀ items, optGet (index results 0) "alerts" = arr items → alerts = arr (items.take 50)) ∧
      (lacksField results 1 "todayAttempts" = true → todayAttempts = num 0) ∧
      (lacksField results 2 "topAttack" = true → topAttack = str "N/A") ∧
      (lacksField results 3 "successRate" = true → successRate = num 0) ∧
      (lacksField results 4 "dailyTrends" = true → dailyTrends = arr []) ∧
      (lacksField results 1 "todayAttempts" = false →
        todayAttempts = optGet (index results 1) "todayAttempts") ∧
      (lacksField results 2 "topAttack" = false →
        topAttack = optGet (index results 2) "topAttack") ∧
      (lacksField results 3 "successRate" = false →
        successRate = optGet (index results 3) "successRate") ∧
      (lacksField results 4 "dailyTrends" = false →
        dailyTrends = optGet (index results 4) "dailyTrends") ∧
      (∀ s, optGet (index results 0) "alerts" = str s → singleUnits s = true →
        alerts = str ⟨s.data.take 50⟩) ∧
      (∀ (net : Net) (base : String),
        ¬ ((truthy (safeFetch net (base ++ "/dashboard") none).1 &&
            truthy (field (safeFetch net (base ++ "/dashboard") none).1 "alerts") &&
            truthy (field (safeFetch net (base ++ "/dashboard") none).1 "stats")) = true) →
        (fetchAllModels net base).1 = results →
        (fetchDashboardData net base).1 =
          .ok (obj [("alerts", alerts),
            ("stats", obj [("todayAttempts", todayAttempts), ("topAttack", topAttack),
                           ("successRate", successRate), ("dailyTrends", dailyTrends)])])) := by
  have hslice : ∃ alerts,
      callSlice50 (orDefault (optGet (index results 0) "alerts") (arr [])) = .ok alerts ∧
      (lacksField results 0 "alerts" = true → alerts = arr []) ∧
      (∀ items, optGet (index results 0) "alerts" = arr items →
        alerts = arr (items.take 50)) ∧
      (∀ s, optGet (index results 0) "alerts" = str s → singleUnits s = true →
        alerts = str ⟨s.data.take 50⟩) := by
    unfold lacksField
    generalize optGet (index results 0) "alerts" = v at h
    cases v <;> simp [sliceableOrAbsent] at h <;>
      simp [orDefault, nullish, callSlice50]
  obtain ⟨alerts, hs, h0, h0', h0''⟩ := hslice
  refine ⟨alerts, orDefault (optGet (index results 1) "todayAttempts") (num 0),
    orDefault (optGet (index results 2) "topAttack") (str "N/A"),
    orDefault (optGet (index results 3) "successRate") (num 0),
    orDefault (optGet (index results 4) "dailyTrends") (arr []),
    by simp only [fallbackAggregate, hs], h0, h0',
    fun hl => orDefault_of_nullish hl, fun hl => orDefault_of_nullish hl,
    fun hl => orDefault_of_nullish hl, fun hl => orDefault_of_nullish hl,
    fun hl => orDefault_of_present hl, fun hl => orDefault_of_present hl,
    fun hl => orDefault_of_present hl, fun hl => orDefault_of_present hl, h0'', ?_⟩
  intro net base hguard hres
  rw [fetchDashboardData_fallback_eq net base hguard, hres]
  simp only [fallbackAggregate, hs]

/-- Witness of C12 (amended): five results of which the third is `null` and the
fifth is empty, served by a backend on the fallback path; the text reported as
`todayAttempts` and the success rate are passed through, `topAttack` and
`dailyTrends` take their defaults. With no fan-out result at all every field takes
its default. -/
theorem fallbackAggregate_defaults_witness :
    fallbackAggregate partialResults =
      .ok (obj [("alerts", arr [sqlAlert]),
        ("stats", obj [("todayAttempts", str "many"), ("topAttack", str "N/A"),
                       ("successRate", num 64), ("dailyTrends", arr [])])]) ∧
    lacksField partialResults 1 "todayAttempts" = false ∧
    lacksField partialResults 2 "topAttack" = true ∧
    lacksField partialResults 3 "successRate" = false ∧
    lacksField partialResults 4 "dailyTrends" = true ∧
    fallbackAggregate [] = .ok emptyDashboard ∧
    (fetchAllModels partialNet localBase).1 = partialResults ∧
    (fetchDashboardData partialNet localBase).1 =
      .ok (obj [("alerts", arr [sqlAlert]),
        ("stats", obj [("todayAttempts", str "many"), ("topAttack", str "N/A"),
                       ("successRate", num 64), ("dailyTrends", arr [])])]) ∧
    ∃ alerts todayAttempts topAttack successRate dailyTrends,
      fallbackAggregate partialResults =
        .ok (obj [("alerts", alerts),
          ("stats", obj [("todayAttempts", todayAttempts), ("topAttack", topAttack),
                         ("successRate", successRate), ("dailyTrends", dailyTrends)])]) ∧
      (lacksField partialResults 0 "alerts" = true → alerts = arr []) ∧
      (∀ items, optGet (index partialResults 0) "alerts" = arr items →
        alerts = arr (items.take 50)) ∧
      (lacksField partialResults 1 "todayAttempts" = true → todayAttempts = num 0) ∧
      (lacksField partialResults 2 "topAttack" = true → topAttack = str "N/A") ∧
      (lacksField partialResults 3 "successRate" = true → successRate = num 0) ∧
      (lacksField partialResults 4 "dailyTrends" = true → dailyTrends = arr []) ∧
      (lacksField partialResults 1 "todayAttempts" = false →
        todayAttempts = optGet (index partialResults 1) "todayAttempts") ∧
      (lacksField partialResults 2 "topAttack" = false →
        topAttack = optGet (index partialResults 2) "topAttack") ∧
      (lacksField partialResults 3 "successRate" = false →
        successRate = optGet (index partialResults 3) "successRate") ∧
      (lacksField partialResults 4 "dailyTrends" = false →
        dailyTrends = optGet (index partialResults 4) "dailyTrends") ∧
      (∀ s, optGet (index partialResults 0) "alerts" = str s → singleUnits s = true →
        alerts = str ⟨s.data.take 50⟩) ∧
      (∀ (net : Net) (base : String),
        ¬ ((truthy (safeFetch net (base ++ "/dashboard") none).1 &&
            truthy (field (safeFetch net (base ++ "/dashboard") none).1 "alerts") &&
            truthy (field (safeFetch net (base ++ "/dashboard") none).1 "stats")) = true) →
        (fetchAllModels net base).1 = partialResults →
        (fetchDashboardData net base).1 =
          .ok (obj [("alerts", alerts),
            ("stats", obj [("todayAttempts", todayAttempts), ("topAttack", topAttack),
                           ("successRate", successRate), ("dailyTrends", dailyTrends)])])) :=
  ⟨by decide, by decide, by decide, by decide, by decide, by decide, by decide, by decide,
   fallbackAggregate_defaults partialResults (by decide)⟩

/-- Counterexample to C12 as stated: a first result with the number 5 as `alerts`
makes the aggregation raise; a text in `todayAttempts` is passed through instead of
being replaced by the default `0`; and a text in `alerts` yields a text, not a
sequence. -/
theorem fallbackAggregate_malformed_counterexample :
    fallbackAggregate numericAlertsResults = .error (.typeError "slice is not a function") ∧
    fallbackAggregate textAttemptsResults =
      .ok (obj [("alerts", arr []),
        ("stats", obj [("todayAttempts", str "many"), ("topAttack", str "N/A"),
                       ("successRate", num 0), ("dailyTrends", arr [])])]) ∧
    fallbackAggregate textAlertsResults =
      .ok (obj [("alerts", str "none"),
        ("stats", obj [("todayAttempts", num 0), ("topAttack", str "N/A"),
                       ("successRate", num 0), ("dailyTrends", arr [])])]) := by
  decide

/-! ### The keyword scan -/

theorem startsWith_iff (p s : List Char) :
    startsWith p s = true ↔ ∃ t, s = p ++ t := by
  induction p generalizing s with
  | nil => simp [startsWith]
  | cons c p ih =>
    cases s with
    | nil => simp [startsWith]
    | cons d s =>
      simp only [startsWith, Bool.and_eq_true, beq_iff_eq, ih, List.cons_append,
        List.cons.injEq]
      constructor
      · rintro ⟨rfl, t, rfl⟩
        exact ⟨t, rfl, rfl⟩
      · rintro ⟨t, rfl, rfl⟩
        exact ⟨rfl, t, rfl⟩

theorem occursIn_iff (p s : List Char) :
    occursIn p s = true ↔ ∃ pre suf, s = pre ++ p ++ suf := by
  induction s with
  | nil =>
    simp only [occursIn, startsWith_iff]
    constructor
    · rintro ⟨t, ht⟩
      exact ⟨[], t, by simpa using ht⟩
    · rintro ⟨pre, suf, h⟩
      have h' := congrArg List.length h
      simp only [List.length_nil, List.length_append] at h'
      have hp : p = [] := List.length_eq_zero.1 (by omega)
      exact ⟨[], by simp [hp]⟩
  | cons c cs ih =>
    simp only [occursIn, Bool.or_eq_true, startsWith_iff, ih]
    constructor
    · rintro (⟨t, ht⟩ | ⟨pre, suf, h⟩)
      · exact ⟨[], t, by simpa using ht⟩
      · exact ⟨c :: pre, suf, by simp [h]⟩
    · rintro ⟨pre, suf, h⟩
      cases pre with
      | nil => exact Or.inl ⟨suf, by simpa using h⟩
      | cons d pre =>
        simp only [List.cons_append, List.cons.injEq] at h
        exact Or.inr ⟨pre, suf, h.2⟩

theorem includes_asciiLower_iff (msg kw : String) :
    includes (asciiLower msg) kw = true ↔
      ∃ pre w suf, msg.data = pre ++ w ++ suf ∧ w.map Char.toLower = kw.data := by
  simp only [includes, asciiLower, occursIn_iff]
  constructor
  · rintro ⟨pre, suf, h⟩
    obtain ⟨l1, l3, h1, h2, h3⟩ := List.map_eq_append_iff.1 h
    obtain ⟨l0, l2, h4, h5, h6⟩ := List.map_eq_append_iff.1 h2
    exact ⟨l0, l2, l3, by rw [h1, h4], h6⟩
  · rintro ⟨pre, w, suf, h, hw⟩
    exact ⟨pre.map Char.toLower, suf.map Char.toLower, by simp [h, hw]⟩

theorem scanMessage_eq_firstCategory (text : String) :
    scanMessage text = firstCategory text := by
  simp only [scanMessage, firstCategory, categories, List.find?, List.any_cons, List.any_nil,
    Bool.or_false]
  by_cases h1 : (includes text "ddos" || includes text "حجب") = true
  · simp [h1]
  · by_cases h2 : includes text "sql" = true
    · simp [h1, h2]
    · by_cases h3 : includes text "xss" = true
      · simp [h1, h2, h3]
      · by_cases h4 : (includes text "تسجيل" || includes text "login") = true
        · simp [h1, h2, h3, h4]
        · simp [h1, h2, h3, h4]

theorem firstCategory_priority (text : String) :
    ((includes text "ddos" = true ∨ includes text "حجب" = true) →
      firstCategory text = typeMap.ddos) ∧
    (includes text "ddos" = false → includes text "حجب" = false →
      includes text "sql" = true → firstCategory text = typeMap.sql) ∧
    (includes text "ddos" = false → includes text "حجب" = false →
      includes text "sql" = false → includes text "xss" = true →
      firstCategory text = typeMap.xss) ∧
    (includes text "ddos" = false → includes text "حجب" = false →
      includes text "sql" = false → includes text "xss" = false →
      (includes text "تسجيل" = true ∨ includes text "login" = true) →
      firstCategory text = typeMap.login) ∧
    (includes text "ddos" = false → includes text "حجب" = false →
      includes text "sql" = false → includes text "xss" = false →
      includes text "تسجيل" = false → includes text "login" = false →
      firstCategory text = typeMap.other) := by
  rw [← scanMessage_eq_firstCategory]
  unfold scanMessage
  refine ⟨?_, ?_, ?_, ?_, ?_⟩
  · rintro (h | h) <;> simp [h]
  · intro h1 h2 h3
    simp [h1, h2, h3]
  · intro h1 h2 h3 h4
    simp [h1, h2, h3, h4]
  · intro h1 h2 h3 h4 h5
    rcases h5 with h5 | h5 <;> simp [h1, h2, h3, h4, h5]
  · intro h1 h2 h3 h4 h5 h6
    simp [h1, h2, h3, h4, h5, h6]

theorem detectType_scan (P : Platform) (a : JVal) (h : isAlertRecord a = true)
    (ht : truthy (field a "attack") = false) :
    detectType P a = .ok (str (scanMessage (P.toLowerCase (messageText a)))) := by
  obtain ⟨props, rfl, hm, -, -, -⟩ := isAlertRecord_obj h
  simp only [field] at ht
  simp only [detectType, member_obj, ht, Bool.false_eq_true, if_false, messageText, field]
  rcases isTextOrAbsent_cases hm with hu | ⟨s, hs⟩
  · simp [hu, orElse, truthy, callToLowerCase]
  · by_cases hs' : s = ""
    · simp [hs, hs', orElse, truthy, callToLowerCase]
    · simp [hs, hs', orElse, truthy, callToLowerCase]

/-- C13 (amended). For every alert record, `detectType` returns the explicit `attack`
field when it is truthy (a non-empty text); otherwise (the field is absent or empty)
it returns the label of the first category, in the priority order denial-of-service,
SQL injection, XSS, login, one of whose keywords occurs in the lower-cased message,
and the "other" label when none occurs. A keyword occurs in the lower-cased form of
an ASCII message exactly when the message contains it at some position in some
letter case, so a message with keywords of several categories gets the label of the
highest-priority one whatever their letter case and position. -/
theorem detectType_priority (P : Platform) (a : JVal) (h : isAlertRecord a = true) :
    (truthy (field a "attack") = true → detectType P a = .ok (field a "attack")) ∧
    (truthy (field a "attack") = false →
      detectType P a = .ok (str (firstCategory (P.toLowerCase (messageText a))))) ∧
    (isAscii (messageText a) = true → ∀ kw,
      (includes (P.toLowerCase (messageText a)) kw = true ↔
        ∃ pre w suf, (messageText a).data = pre ++ w ++ suf ∧
          w.map Char.toLower = kw.data)) ∧
    (∀ text,
      ((includes text "ddos" = true ∨ includes text "حجب" = true) →
        firstCategory text = typeMap.ddos) ∧
      (includes text "ddos" = false → includes text "حجب" = false →
        includes text "sql" = true → firstCategory text = typeMap.sql) ∧
      (includes text "ddos" = false → includes text "حجب" = false →
        includes text "sql" = false → includes text "xss" = true →
        firstCategory text = typeMap.xss) ∧
      (includes text "ddos" = false → includes text "حجب" = false →
        includes text "sql" = false → includes text "xss" = false →
        (includes text "تسجيل" = true ∨ includes text "login" = true) →
        firstCategory text = typeMap.login) ∧
      (includes text "ddos" = false → includes text "حجب" = false →
        includes text "sql" = false → includes text "xss" = false →
        includes text "تسجيل" = false → includes text "login" = false →
        firstCategory text = typeMap.other)) := by
  refine ⟨?_, ?_, ?_, firstCategory_priority⟩
  · intro ht
    obtain ⟨props, rfl, -, -, -, -⟩ := isAlertRecord_obj h
    simp only [field] at ht
    simp [detectType, member_obj, field, ht]
  · intro ht
    rw [detectType_scan P a h ht, scanMessage_eq_firstCategory]
  · intro hascii kw
    rw [P.toLowerCase_ascii _ hascii]
    exact includes_asciiLower_iff _ kw

/-- Witness of C13 (amended): a message naming login, XSS, SQL and DDoS in mixed
letter case is labelled denial-of-service on the reference platform. -/
theorem detectType_priority_witness :
    isAlertRecord mixedAlert = true ∧
    truthy (field mixedAlert "attack") = false ∧
    firstCategory (refPlatform.toLowerCase (messageText mixedAlert)) = typeMap.ddos ∧
    detectType refPlatform mixedAlert = .ok (str "حجب الخدمة") :=
  ⟨by decide, by decide, by decide,
   (detectType_priority refPlatform mixedAlert (by decide)).2.1 (by decide)⟩

/-- Counterexample to C13 as stated: an alert whose `attack` field is present but
empty is not given that field as its label; its message is scanned and it is labelled
SQL injection. -/
theorem detectType_empty_attack_counterexample :
    hasKey emptyLabelAlert "attack" = true ∧
    field emptyLabelAlert "attack" = str "" ∧
    detectType refPlatform emptyLabelAlert = .ok (str typeMap.sql) ∧
    detectType refPlatform emptyLabelAlert ≠ .ok (field emptyLabelAlert "attack") := by
  decide

/-! ### Attack-type distribution -/

theorem mem_firstSeen (l : List String) (k : String) : k ∈ firstSeen l ↔ k ∈ l := by
  induction l with
  | nil => simp [firstSeen]
  | cons x xs ih =>
    simp only [firstSeen, List.mem_cons, List.mem_filter, ih, decide_eq_true_eq]
    by_cases h : k = x <;> simp [h]

theorem firstSeen_snoc (l : List String) (k : String) :
    firstSeen (l ++ [k]) = if k ∈ l then firstSeen l else firstSeen l ++ [k] := by
  induction l with
  | nil => simp [firstSeen]
  | cons x xs ih =>
    have e : firstSeen (x :: xs ++ [k]) =
        x :: (firstSeen (xs ++ [k])).filter (fun y => decide (y ≠ x)) := rfl
    rw [e, ih]
    by_cases hx : k = x
    · subst hx
      by_cases hk : k ∈ xs <;> simp [hk, firstSeen, List.filter_append]
    · by_cases hk : k ∈ xs <;> simp [hk, hx, firstSeen, List.filter_append]
theorem ownValue_map (ks : List String) (f : String → JVal) (k : String) :
    ownValue k (ks.map (fun x => (x, f x))) = if k ∈ ks then some (f k) else none := by
  induction ks with
  | nil => simp [ownValue]
  | cons x xs ih =>
    simp only [ownValue] at ih ⊢
    by_cases h : x = k
    · subst h
      simp [List.find?]
    · have h' : ¬ k = x := fun e => h e.symm
      simp only [List.map_cons, List.find?_cons, h, decide_False, ih, List.mem_cons, h',
        false_or]

theorem any_key_map (ks : List String) (f : String → JVal) (k : String) :
    (ks.map (fun x => (x, f x))).any (fun kv => decide (kv.1 = k)) = decide (k ∈ ks) := by
  induction ks with
  | nil => simp
  | cons x xs ih =>
    simp only [List.map_cons, List.any_cons, ih, List.mem_cons]
    by_cases h : x = k
    · simp [h]
    · have h' : ¬ k = x := fun e => h e.symm
      simp [h, h']

theorem insertNew_ordinary (key : String) (v : JVal) (props : List (String × JVal))
    (h : arrayIndex key = none) : insertNew key v props = props ++ [(key, v)] := by
  induction props with
  | nil => rfl
  | cons kv rest ih =>
    obtain ⟨k, w⟩ := kv
    simp only [insertNew, h, ih, List.cons_append]

theorem countsStep_tally (proto : String → Option String) (l : List String) (k : String)
    (h : ordinaryKey proto k = true) : countsStep proto (tally l) k = tally (l ++ [k]) := by
  simp only [ordinaryKey, Bool.and_eq_true, Option.isNone_iff_eq_none, decide_eq_true_eq] at h
  obtain ⟨⟨hidx, hproto⟩, hne⟩ := h
  simp only [countsStep, if_neg hne, tally, ownValue_map, mem_firstSeen]
  by_cases hk : k ∈ l
  · have hpos : 0 < l.count k := List.count_pos_iff.2 hk
    have hnz : ((l.count k : Nat) : Int) ≠ 0 := by omega
    simp only [hk, if_true, orZeroPlusOne, hnz, ne_eq, not_false_eq_true, setOwn, any_key_map,
      mem_firstSeen, decide_True, firstSeen_snoc, List.map_map]
    apply List.map_congr_left
    intro x _
    by_cases hx : x = k
    · subst hx
      simp [List.count_append]
    · have hx' : ¬ k = x := fun e => hx e.symm
      simp [hx, hx', List.count_append, List.count_singleton']
  · simp only [hk, if_false, hproto, setOwn, any_key_map, mem_firstSeen, decide_False,
      Bool.false_eq_true, firstSeen_snoc, List.map_append, List.map_cons, List.map_nil]
    rw [insertNew_ordinary _ _ _ hidx]
    congr 1
    · apply List.map_congr_left
      intro x hx
      have hxl : x ∈ l := (mem_firstSeen l x).1 hx
      have hxk : ¬ k = x := fun e => hk (e ▸ hxl)
      simp [List.count_append, List.count_singleton', hxk]
    · simp [List.count_append, List.count_eq_zero_of_not_mem hk]

theorem foldl_countsStep_tally (proto : String → Option String) (keys l : List String)
    (h : ∀ k ∈ keys, ordinaryKey proto k = true) :
    keys.foldl (countsStep proto) (tally l) = tally (l ++ keys) := by
  induction keys generalizing l with
  | nil => simp
  | cons k rest ih =>
    rw [List.foldl_cons, countsStep_tally proto l k (h k (List.mem_cons_self _ _)),
      ih (l ++ [k]) (fun x hx => h x (List.mem_cons_of_mem _ hx))]
    simp

theorem countLoop_records (P : Platform) (proto : String → Option String)
    (alerts : List JVal) (h : ∀ a ∈ alerts, isAlertRecord a = true)
    (counts : List (String × JVal)) :
    countLoop P proto counts alerts =
      .ok ((alerts.map (labelKey P)).foldl (countsStep proto) counts) := by
  induction alerts generalizing counts with
  | nil => rfl
  | cons a rest ih =>
    obtain ⟨v, hv, -⟩ := detectType_record P a (h a (List.mem_cons_self _ _))
    simp only [countLoop, hv, List.map_cons, List.foldl_cons, labelKey]
    exact ih (fun x hx => h x (List.mem_cons_of_mem _ hx)) _

/-- C14 (amended). For every non-empty sequence of alert records none of whose labels
is an array-index text (such as a digit-only label), the name of a property inherited
from `Object.prototype`, or `__proto__`, `attackDistribution` returns one
`(name, value)` pair per distinct label, where the value is the number of alerts
classified with that label, and the pairs appear in the order in which their labels
are first seen in the alert sequence. -/
theorem attackDistribution_first_seen (P : Platform) (proto : String → Option String)
    (alerts : List JVal) (hne : alerts ≠ [])
    (hrec : ∀ a ∈ alerts, isAlertRecord a = true)
    (hord : ∀ a ∈ alerts, ordinaryKey proto (labelKey P a) = true) :
    attackDistribution P proto alerts =
      .ok (arr ((firstSeen (alerts.map (labelKey P))).map (fun k =>
        obj [("name", str k),
             ("value", num (((alerts.map (labelKey P)).count k : Nat) : Int))]))) := by
  have hlen : alerts.length ≠ 0 := by simpa using hne
  have hkeys : ∀ k ∈ alerts.map (labelKey P), ordinaryKey proto k = true := by
    intro k hk
    obtain ⟨a, ha, rfl⟩ := List.mem_map.1 hk
    exact hord a ha
  have hfold := foldl_countsStep_tally proto (alerts.map (labelKey P)) [] hkeys
  have htally : tally [] = [] := rfl
  rw [htally, List.nil_append] at hfold
  simp only [attackDistribution, if_neg hlen, countLoop_records P proto alerts hrec, hfold,
    tally, List.map_map, Function.comp_def]

/-- Witness of C14 (amended): seven alerts of four labels; the pairs come in the
order SQL injection, login attempts, XSS, "Port Scan". -/
theorem attackDistribution_first_seen_witness :
    attackDistribution refPlatform refProto
        [sqlAlert, lowAlert, weekAlert, portScanAlert, sqlAlert, untimedAlert, ancientAlert] =
      .ok (arr [obj [("name", str "حقن SQL"), ("value", num 2)],
                obj [("name", str "محاولات تسجيل دخول"), ("value", num 2)],
                obj [("name", str "XSS"), ("value", num 2)],
                obj [("name", str "Port Scan"), ("value", num 1)]]) :=
  attackDistribution_first_seen refPlatform refProto
    [sqlAlert, lowAlert, weekAlert, portScanAlert, sqlAlert, untimedAlert, ancientAlert]
    (by decide) (by decide) (by decide)

/-- Counterexample to C14 as stated: with the explicit labels "scan", "404", "scan"
the pair of the digit-only label, seen second, comes first; and the label
"constructor" is paired with a text built from the inherited property, not with the
count 1. -/
theorem attackDistribution_order_counterexample :
    codedAlerts.map (labelKey refPlatform) = ["scan", "404", "scan"] ∧
    attackDistribution refPlatform refProto codedAlerts =
      .ok (arr [obj [("name", str "404"), ("value", num 1)],
                obj [("name", str "scan"), ("value", num 2)]]) ∧
    attackDistribution refPlatform refProto [constructorAlert] =
      .ok (arr [obj [("name", str "constructor"),
                     ("value", str "function Object() \x7b [native code] \x7d1")]]) := by
  decide

/-! ### Daily trends by weekday -/

theorem bump_seven (f : Nat → Int) (d : Fin 7) :
    bump [f 0, f 1, f 2, f 3, f 4, f 5, f 6] d.val =
      [f 0 + (if d.val = 0 then 1 else 0), f 1 + (if d.val = 1 then 1 else 0),
       f 2 + (if d.val = 2 then 1 else 0), f 3 + (if d.val = 3 then 1 else 0),
       f 4 + (if d.val = 4 then 1 else 0), f 5 + (if d.val = 5 then 1 else 0),
       f 6 + (if d.val = 6 then 1 else 0)] := by
  fin_cases d <;> simp [bump]

theorem dayStep_seven (P : Platform) (f : Nat → Int) (a : JVal)
    (h : isAlertRecord a = true) :
    dayStep P [f 0, f 1, f 2, f 3, f 4, f 5, f 6] a =
      .ok [f 0 + (if alertDay P a = some 0 then 1 else 0),
           f 1 + (if alertDay P a = some 1 then 1 else 0),
           f 2 + (if alertDay P a = some 2 then 1 else 0),
           f 3 + (if alertDay P a = some 3 then 1 else 0),
           f 4 + (if alertDay P a = some 4 then 1 else 0),
           f 5 + (if alertDay P a = some 5 then 1 else 0),
           f 6 + (if alertDay P a = some 6 then 1 else 0)] := by
  obtain ⟨props, rfl, -, ht, -, -⟩ := isAlertRecord_obj h
  simp only [dayStep, member_obj, alertDay, field]
  rcases isTextOrAbsent_cases ht with hu | ⟨s, hs⟩
  · simp [hu, truthy]
  · simp only [hs]
    by_cases hs' : s = ""
    · simp [hs', truthy]
    · cases hp : P.dateParse (blankToT s) with
      | none => simp [hs', truthy, callReplace, hp]
      | some t =>
        simp only [truthy, hs', ne_eq, not_false_eq_true, decide_True, Bool.not_true,
          Bool.false_eq_true, if_false, callReplace, hp, bump_seven f (P.getDay t),
          Option.map_some', Option.some.injEq]

theorem dayCounts_seven (P : Platform) (alerts : List JVal)
    (h : ∀ a ∈ alerts, isAlertRecord a = true) (f : Nat → Int) :
    dayCounts P [f 0, f 1, f 2, f 3, f 4, f 5, f 6] alerts =
      .ok [f 0 + onDayCount P alerts 0, f 1 + onDayCount P alerts 1,
           f 2 + onDayCount P alerts 2, f 3 + onDayCount P alerts 3,
           f 4 + onDayCount P alerts 4, f 5 + onDayCount P alerts 5,
           f 6 + onDayCount P alerts 6] := by
  induction alerts generalizing f with
  | nil => simp [dayCounts, onDayCount]
  | cons a rest ih =>
    have hstep := dayStep_seven P f a (h a (List.mem_cons_self _ _))
    have ih' := ih (fun x hx => h x (List.mem_cons_of_mem _ hx))
      (fun i => f i + (if alertDay P a = some i then 1 else 0))
    simp only [dayCounts, hstep, ih']
    have e : ∀ i, f i + (if alertDay P a = some i then 1 else 0) + onDayCount P rest i =
        f i + onDayCount P (a :: rest) i := by
      intro i
      simp only [onDayCount, List.countP_cons]
      by_cases hd : alertDay P a = some i
      · simp [hd]; ring
      · simp [hd]
    simp only [e]

/-- C15. `dailyTrendsData` returns `null` for the empty alert set; for every non-empty
sequence of alert records it returns exactly seven entries, whose labels are the day
names of `daysAr` in their fixed order, Sunday at index 0 through Saturday at index 6,
whatever the alerts contain, and whose entry at index `i` counts the alerts whose
parsed timestamp falls on weekday `i`. -/
theorem dailyTrends_buckets (P : Platform) (alerts : List JVal) (hne : alerts ≠ [])
    (h : ∀ a ∈ alerts, isAlertRecord a = true) :
    dailyTrendsData P [] = .ok null ∧
    dailyTrendsData P alerts =
      .ok (arr ((List.range 7).map (fun i =>
        obj [("date", str (daysAr.getD i "")), ("attempts", num (onDayCount P alerts i))]))) ∧
    ((List.range 7).map (fun i =>
        obj [("date", str (daysAr.getD i "")),
             ("attempts", num (onDayCount P alerts i))])).length = 7 ∧
    (List.range 7).map (fun i => daysAr.getD i "") =
      ["الأحد", "الإثنين", "الثلاثاء", "الأربعاء", "الخميس", "الجمعة", "السبت"] := by
  have hlen : alerts.length ≠ 0 := by simpa using hne
  have hc := dayCounts_seven P alerts h (fun _ => 0)
  have hrep : List.replicate 7 (0 : Int) = [0, 0, 0, 0, 0, 0, 0] := rfl
  refine ⟨rfl, ?_, by simp, by decide⟩
  simp only [dailyTrendsData, if_neg hlen, hrep, hc, zero_add]
  rfl

/-- Witness of C15: five alerts, two on a Wednesday, one on a Monday, one on a
Friday, one without a timestamp. -/
theorem dailyTrends_buckets_witness :
    dailyTrendsData refPlatform [sqlAlert, lowAlert, weekAlert, untimedAlert, sqlAlert] =
      .ok (arr [obj [("date", str "الأحد"), ("attempts", num 0)],
                obj [("date", str "الإثنين"), ("attempts", num 1)],
                obj [("date", str "الثلاثاء"), ("attempts", num 0)],
                obj [("date", str "الأربعاء"), ("attempts", num 2)],
                obj [("date", str "الخميس"), ("attempts", num 0)],
                obj [("date", str "الجمعة"), ("attempts", num 1)],
                obj [("date", str "السبت"), ("attempts", num 0)]]) :=
  (dailyTrends_buckets refPlatform [sqlAlert, lowAlert, weekAlert, untimedAlert, sqlAlert]
    (by decide) (by decide)).2.1

/-! ### Alerts without a usable timestamp -/

theorem tablePredicate_untimed (P : Platform) (now : Int) (lf pf : String) (a : JVal)
    (hrec : isAlertRecord a = true) (hts : field a "timestamp" = undefined)
    (hpf : pf ≠ "all") (hlevel : tablePredicate P now lf "all" a = .ok true) :
    tablePredicate P now lf pf a = .error (.typeError "replace is not a function") := by
  obtain ⟨props, rfl, -, -, -, -⟩ := isAlertRecord_obj hrec
  simp only [field] at hts
  unfold tablePredicate at hlevel ⊢
  simp only [member_obj] at hlevel ⊢
  by_cases c1 : lf ≠ "all" ∧ lookup "level" props ≠ str lf
  · rw [if_pos c1] at hlevel
    cases hlevel
  · by_cases c2 : lf = "all" ∧ lookup "level" props = str "low"
    · rw [if_neg c1, if_pos c2] at hlevel
      cases hlevel
    · rw [if_neg c1, if_neg c2, if_neg hpf]
      simp [hts, callReplace]

/-- C16, evaluated on the code. An alert without a timestamp that the level filter
admits makes the alerts-table filter raise under each of the period filters "day",
"week" and "month": `alert.timestamp.replace` is called on `undefined`; this holds
for every alert record without a timestamp, on every platform. The sibling
computation `dailyTrendsData` skips the same alert, an alert with a malformed text
timestamp is omitted without raising, and under the period filter "all" both alerts
are retained. -/
theorem tableFilter_untimed_raises :
    (∀ periodFilter ∈ ["day", "week", "month"],
      tableFilter refPlatform sampleNow "all" periodFilter [sqlAlert, untimedAlert] =
        .error (.typeError "replace is not a function")) ∧
    (∀ (P : Platform) (now : Int) (levelFilter periodFilter : String) (a : JVal),
      isAlertRecord a = true → field a "timestamp" = undefined → periodFilter ≠ "all" →
      tablePredicate P now levelFilter "all" a = .ok true →
      tablePredicate P now levelFilter periodFilter a =
        .error (.typeError "replace is not a function")) ∧
    (∀ periodFilter ∈ ["day", "week", "month"],
      tableFilter refPlatform sampleNow "all" periodFilter [malformedAlert] = .ok []) ∧
    tableFilter refPlatform sampleNow "all" "all" [untimedAlert, malformedAlert] =
      .ok [untimedAlert, malformedAlert] ∧
    dailyTrendsData refPlatform [untimedAlert] =
      .ok (arr (trendEntries 0 [0, 0, 0, 0, 0, 0, 0])) :=
  ⟨by decide, fun P now lf pf a h1 h2 h3 h4 => tablePredicate_untimed P now lf pf a h1 h2 h3 h4,
   by decide, by decide, by decide⟩

/-! ### Free-text search -/

theorem filterE_eq_filter {α : Type} (p : α → Except JsError Bool) (q : α → Bool)
    (l : List α) (h : ∀ a ∈ l, p a = .ok (q a)) : filterE p l = .ok (l.filter q) := by
  induction l with
  | nil => rfl
  | cons a rest ih =>
    simp only [filterE, h a (List.mem_cons_self _ _),
      ih (fun x hx => h x (List.mem_cons_of_mem _ hx)), List.filter_cons]

theorem optLowerIncludes_text (P : Platform) (v : JVal) (term : String)
    (h : isTextOrAbsent v = true) :
    ∃ r, optLowerIncludes P v (P.toLowerCase term) = .ok r ∧
      truthy r = textMatches P term v := by
  rcases isTextOrAbsent_cases h with rfl | ⟨s, rfl⟩
  · exact ⟨undefined, rfl, rfl⟩
  · exact ⟨bool (includes (P.toLowerCase s) (P.toLowerCase term)), rfl, rfl⟩

theorem searchPredicate_record (P : Platform) (term : String) (a : JVal)
    (h : isAlertRecord a = true) :
    searchPredicate P term a = .ok (searchMatches P term a) := by
  have h' := h
  obtain ⟨props, rfl, hm, -, -, -⟩ := isAlertRecord_obj h
  have hsrc : isTextOrAbsent (lookup "source" props) = true := by
    simp only [isAlertRecord, Bool.and_eq_true] at h'
    exact h'.1.1.1.2
  obtain ⟨l, hl, hlt⟩ := optLowerIncludes_text P (lookup "message" props) term hm
  obtain ⟨r, hr, hrt⟩ := optLowerIncludes_text P (lookup "source" props) term hsrc
  simp only [searchPredicate, member_obj, hl, hr, searchMatches, field, hlt, hrt]
  cases textMatches P term (lookup "message" props) <;> simp

/-- C17. For every list of alert records and every search term, `filteredAlerts`
never fails and is exactly the sub-sequence, in original order, of the alerts whose
message or whose source is a text containing the search term when both are
lower-cased; an alert lacking one of the two fields is matched on the other. For an
ASCII text and an ASCII search term, this containment is occurrence of the term at
some position of the text up to letter case. -/
theorem filteredAlerts_search (P : Platform) (term : String) (alerts : List JVal)
    (h : ∀ a ∈ alerts, isAlertRecord a = true) :
    filteredAlerts P term alerts = .ok (alerts.filter (searchMatches P term)) ∧
    (alerts.filter (searchMatches P term)).Sublist alerts ∧
    (∀ a ∈ alerts, field a "message" = undefined →
      searchMatches P term a = textMatches P term (field a "source")) ∧
    (∀ a ∈ alerts, field a "source" = undefined →
      searchMatches P term a = textMatches P term (field a "message")) ∧
    (∀ s : String, isAscii s = true → isAscii term = true →
      (textMatches P term (str s) = true ↔
        ∃ pre w suf, s.data = pre ++ w ++ suf ∧
          w.map Char.toLower = term.data.map Char.toLower)) := by
  refine ⟨?_, List.filter_sublist _, ?_, ?_, ?_⟩
  · exact filterE_eq_filter _ _ _ (fun a ha => searchPredicate_record P term a (h a ha))
  · intro a _ hm
    simp [searchMatches, hm, textMatches]
  · intro a _ hs
    simp [searchMatches, hs, textMatches]
  · intro s hs hterm
    simp only [textMatches, P.toLowerCase_ascii s hs, P.toLowerCase_ascii term hterm]
    exact includes_asciiLower_iff s (asciiLower term)

/-- Witness of C17: the term "LOGIN" on the sample alerts and two more; the alert
matched on its source only is kept. -/
theorem filteredAlerts_search_witness :
    filteredAlerts refPlatform "LOGIN"
        (sampleAlerts ++ [obj [("source", str "Login-Gateway")], obj [("message", str "x")]]) =
      .ok [lowAlert, ancientAlert, obj [("source", str "Login-Gateway")]] :=
  (filteredAlerts_search refPlatform "LOGIN"
    (sampleAlerts ++ [obj [("source", str "Login-Gateway")], obj [("message", str "x")]])
    (by decide)).1

/-! ### The shape of the CSV payload -/

theorem escapeQuotes_eq_flatMap (s : List Char) :
    escapeQuotes s = s.flatMap (fun c => if c = '"' then ['"', '"'] else [c]) := by
  induction s with
  | nil => rfl
  | cons c s ih =>
    by_cases hc : c = '"'
    · simp [escapeQuotes, hc, ih]
    · simp [escapeQuotes, hc, ih]

theorem joinWith_intercalate (sep : String) (items : List JVal) :
    (joinWith sep items).data =
      List.intercalate sep.data (items.map (fun v =>
        match v with
        | .undefined => []
        | .null => []
        | v => (toStr v).data)) := by
  induction items with
  | nil => simp [joinWith, List.intercalate]
  | cons x rest ih =>
    cases rest with
    | nil =>
      cases x <;> simp [joinWith, List.intercalate]
    | cons y ys =>
      have hstep : joinWith sep (x :: y :: ys) =
          (match x with
            | .undefined => ""
            | .null => ""
            | v => toStr v) ++ (sep ++ joinWith sep (y :: ys)) := by
        cases x <;> rfl
      rw [hstep, String.data_append, String.data_append, ih]
      cases x <;> simp [List.intercalate]

theorem isObject_obj {r : JVal} (h : isObject r = true) : ∃ props, r = obj props := by
  cases r <;> simp [isObject] at h
  exact ⟨_, rfl⟩

theorem joined_quoteValue (v : JVal) :
    (match quoteValue v with
      | .undefined => []
      | .null => []
      | w => (toStr w).data) = cellChars v := by
  cases v <;> simp [quoteValue, cellChars, toStr, escapeQuotes_eq_flatMap]

theorem rowText_object {r : JVal} (h : isObject r = true) :
    csvRow r = .ok (rowText r) ∧
      (rowText r).data = List.intercalate [','] ((valuesOf r).map cellChars) := by
  obtain ⟨props, rfl⟩ := isObject_obj h
  refine ⟨rfl, ?_⟩
  show (joinWith "," ((props.map Prod.snd).map quoteValue)).data = _
  rw [joinWith_intercalate]
  simp only [valuesOf, List.map_map, Function.comp_def, joined_quoteValue]

theorem setOwn_keys_ordinary (key : String) (v : JVal) (props : List (String × JVal))
    (h : arrayIndex key = none) :
    (setOwn key v props).map Prod.fst =
      if key ∈ props.map Prod.fst then props.map Prod.fst else props.map Prod.fst ++ [key] := by
  unfold setOwn
  by_cases hk : key ∈ props.map Prod.fst
  · have hany : props.any (fun kv => decide (kv.1 = key)) = true := by
      simp only [List.mem_map] at hk
      obtain ⟨kv, hkv, rfl⟩ := hk
      exact List.any_eq_true.2 ⟨kv, hkv, by simp⟩
    rw [if_pos hany, if_pos hk, List.map_map]
    apply List.map_congr_left
    intro kv _
    by_cases e : kv.1 = key <;> simp [e]
  · have hany : ¬ props.any (fun kv => decide (kv.1 = key)) = true := by
      intro hc
      obtain ⟨kv, hkv, e⟩ := List.any_eq_true.1 hc
      exact hk (List.mem_map.2 ⟨kv, hkv, by simpa using e⟩)
    rw [if_neg hany, if_neg hk, insertNew_ordinary _ _ _ h]
    simp

theorem foldl_setOwn_keys (members : List (String × JVal))
    (h : ∀ kv ∈ members, arrayIndex kv.1 = none) :
    ∀ (seen : List (String × JVal)) (props : List (String × JVal)),
      props.map Prod.fst = firstSeen (seen.map Prod.fst) →
      (members.foldl (fun props kv => setOwn kv.1 kv.2 props) props).map Prod.fst =
        firstSeen ((seen ++ members).map Prod.fst) := by
  induction members with
  | nil => intro seen props hp; simpa using hp
  | cons kv rest ih =>
    intro seen props hp
    have hrest : ∀ kv ∈ rest, arrayIndex kv.1 = none :=
      fun x hx => h x (List.mem_cons_of_mem _ hx)
    have hstep : (setOwn kv.1 kv.2 props).map Prod.fst =
        firstSeen ((seen ++ [kv]).map Prod.fst) := by
      rw [setOwn_keys_ordinary _ _ _ (h kv (List.mem_cons_self _ _)), hp, List.map_append,
        List.map_cons, List.map_nil, firstSeen_snoc]
      simp only [mem_firstSeen]
    have := ih hrest (seen ++ [kv]) (setOwn kv.1 kv.2 props) hstep
    simpa [List.foldl_cons, List.append_assoc] using this

theorem parsedObject_keys (members : List (String × JVal))
    (h : ∀ kv ∈ members, arrayIndex kv.1 = none) :
    keysOf (parsedObject members) = firstSeen (members.map Prod.fst) := by
  have := foldl_setOwn_keys members h [] [] rfl
  simpa [parsedObject, keysOf] using this

theorem isExportRecord_isObject {r : JVal} (h : isExportRecord r = true) :
    isObject r = true := by
  simp only [isExportRecord, Bool.and_eq_true] at h
  exact h.1

theorem handleDownloadReport_download (net : Net) (base : String) (now : Int)
    (first : JVal) (rest : List JVal) (csv : String)
    (hhist : (fetchAttackHistory net base 1000).1 = arr (first :: rest))
    (hcsv : csvContent (arr (first :: rest)) = .ok csv) :
    handleDownloadReport net base now =
      (fetchAttackHistory net base 1000).2 ++ downloadEffects csv now := by
  have hlen : truthy (lengthOf (arr (first :: rest))) = true := by
    simp [lengthOf, truthy]
    omega
  have hcond : ¬ ((!truthy (arr (first :: rest)) ||
      !truthy (lengthOf (arr (first :: rest)))) = true) := by
    rw [hlen]
    simp [truthy]
  simp only [handleDownloadReport, hhist, if_neg hcond, hcsv, downloadEffects]

/-- Counterexample to C18 as stated: in the record `{"message":"x","404":"y"}` the
key `message` is seen first, but an object enumerates its array-index keys before
the others, so the header line of the export is `404,message`. -/
theorem csvContent_index_key_counterexample :
    firstSeen (indexKeyMembers.map Prod.fst) = ["message", "404"] ∧
    keysOf (parsedObject indexKeyMembers) = ["404", "message"] ∧
    csvContent (arr [parsedObject indexKeyMembers]) = .ok "404,message\n\"y\",\"x\"" ∧
    handleDownloadReport
        (stubNet [(localBase ++ "/attacks?limit=1000", arr [parsedObject indexKeyMembers])])
        localBase 0 =
      [.fetch ⟨localBase ++ "/attacks?limit=1000", none⟩,
       .newBlob "404,message\n\"y\",\"x\"", .createObjectURL,
       .appendLink "attack_report_0.csv", .click, .removeLink, .revokeObjectURL] := by
  decide

/-- C18 (amended). For every non-empty sequence of records, objects whose numbers
are safe integers, the CSV payload built by `handleDownloadReport` is the
newline-separated sequence of a header line, the keys of the first record in the
order in which the object enumerates them joined by commas, and one line per record
in input order, the comma-joined cells of its values: a textual value between double
quotes with every embedded double quote doubled, any other value unquoted as `join`
renders it. The enumeration order is first-seen order for a record none of whose
keys is an array index. This text is the content of the blob that
`handleDownloadReport` offers for download when the retrieval yields these records,
the download being all it does after the retrieval. -/
theorem csvContent_shape (first : JVal) (rest : List JVal)
    (h : ∀ r ∈ first :: rest, isExportRecord r = true) :
    ∃ csv : String, csvContent (arr (first :: rest)) = .ok csv ∧
      csv.data = List.intercalate ['\n'] (csvLines first rest) ∧
      (csvLines first rest).length = (first :: rest).length + 1 ∧
      (∀ members, first = parsedObject members →
        (∀ kv ∈ members, arrayIndex kv.1 = none) →
        keysOf first = firstSeen (members.map Prod.fst)) ∧
      (∀ (net : Net) (base : String) (now : Int),
        (fetchAttackHistory net base 1000).1 = arr (first :: rest) →
        handleDownloadReport net base now =
          (fetchAttackHistory net base 1000).2 ++ downloadEffects csv now) := by
  have h : ∀ r ∈ first :: rest, isObject r = true :=
    fun r hr => isExportRecord_isObject (h r hr)
  obtain ⟨props, hfirst⟩ := isObject_obj (h first (List.mem_cons_self _ _))
  have hkeys : objectKeys (firstOf (arr (first :: rest))) = .ok (keysOf first) := by
    subst hfirst
    rfl
  have hrows : mapE csvRow (first :: rest) = .ok ((first :: rest).map rowText) :=
    mapE_eq_map csvRow rowText _ (fun r hr => (rowText_object (h r hr)).1)
  have hcsv : csvContent (arr (first :: rest)) =
      .ok (joinWith "\n" [str (joinWith "," ((keysOf first).map str)),
        str (joinWith "\n" (((first :: rest).map rowText).map str))]) := by
    simp only [csvContent, hkeys, hrows]
  refine ⟨_, hcsv, ?_, by simp [csvLines], ?_, ?_⟩
  · have hhead : (joinWith "," ((keysOf first).map str)).data =
        List.intercalate [','] ((keysOf first).map String.data) := by
      rw [joinWith_intercalate]
      simp only [List.map_map, Function.comp_def, toStr]
    have hbody : (joinWith "\n" (((first :: rest).map rowText).map str)).data =
        List.intercalate ['\n'] ((first :: rest).map
          (fun r => List.intercalate [','] ((valuesOf r).map cellChars))) := by
      rw [joinWith_intercalate]
      simp only [List.map_map, Function.comp_def, toStr]
      congr 1
      apply List.map_congr_left
      intro r hr
      exact (rowText_object (h r hr)).2
    rw [joinWith_intercalate]
    simp only [List.map_cons, List.map_nil, toStr, hhead] at hbody ⊢
    rw [hbody]
    simp [csvLines, List.intercalate]
  · intro members hm hidx
    rw [hm]
    exact parsedObject_keys members hidx
  · intro net base now hhist
    exact handleDownloadReport_download net base now first rest _ hhist hcsv

/-- Witness of C18 (amended) on the two sample records, the first being the object
built from its members in first-seen order; the export of a backend that serves
them is evaluated. -/
theorem csvContent_shape_witness :
    parsedObject [("message", str "say \"hi\", then\nleave"), ("level", str "high"),
        ("count", num (-3)), ("level", str "high")] =
      obj [("message", str "say \"hi\", then\nleave"), ("level", str "high"),
        ("count", num (-3))] ∧
    csvContent (arr sampleRecords) =
      .ok "message,level,count\n\"say \"\"hi\"\", then\nleave\",\"high\",-3\n\"\",\"low\",12" ∧
    handleDownloadReport (stubNet [(localBase ++ "/attacks?limit=1000", arr sampleRecords)])
        localBase 5 =
      [.fetch ⟨localBase ++ "/attacks?limit=1000", none⟩,
       .newBlob "message,level,count\n\"say \"\"hi\"\", then\nleave\",\"high\",-3\n\"\",\"low\",12",
       .createObjectURL, .appendLink "attack_report_5.csv", .click, .removeLink,
       .revokeObjectURL] ∧
    ∃ csv : String, csvContent (arr sampleRecords) = .ok csv ∧
      csv.data = List.intercalate ['\n']
        (csvLines (obj [("message", str "say \"hi\", then\nleave"), ("level", str "high"),
          ("count", num (-3))])
          [obj [("message", str ""), ("level", str "low"), ("count", num 12)]]) ∧
      (csvLines (obj [("message", str "say \"hi\", then\nleave"), ("level", str "high"),
          ("count", num (-3))])
          [obj [("message", str ""), ("level", str "low"), ("count", num 12)]]).length =
        sampleRecords.length + 1 ∧
      (∀ members, obj [("message", str "say \"hi\", then\nleave"), ("level", str "high"),
          ("count", num (-3))] = parsedObject members →
        (∀ kv ∈ members, arrayIndex kv.1 = none) →
        keysOf (obj [("message", str "say \"hi\", then\nleave"), ("level", str "high"),
          ("count", num (-3))]) = firstSeen (members.map Prod.fst)) ∧
      (∀ (net : Net) (base : String) (now : Int),
        (fetchAttackHistory net base 1000).1 = arr sampleRecords →
        handleDownloadReport net base now =
          (fetchAttackHistory net base 1000).2 ++ downloadEffects csv now) :=
  ⟨by decide, by decide, by decide, csvContent_shape _ _ (by decide)⟩

/-! ### The alerts table as a conjunction of predicates -/

theorem tablePredicate_parsable (P : Platform) (now : Int) (lf pf : String) (a : JVal)
    (hpf : pf ∈ ["all", "day", "week", "month"]) (hrec : isAlertRecord a = true) (t : Int)
    (ht : alertTime P a = some t) :
    tablePredicate P now lf pf a = .ok (levelAdmits lf a && periodAdmits now pf t) := by
  obtain ⟨props, rfl, -, -, -, -⟩ := isAlertRecord_obj hrec
  simp only [alertTime, field] at ht
  cases hts : lookup "timestamp" props <;> simp only [hts] at ht <;> try cases ht
  rename_i s
  unfold tablePredicate
  simp only [member_obj, levelAdmits, field]
  by_cases c1 : lf ≠ "all" ∧ lookup "level" props ≠ str lf
  · rw [if_pos c1]
    simp [c1.1, c1.2]
  · by_cases c2 : lf = "all" ∧ lookup "level" props = str "low"
    · rw [if_neg c1, if_pos c2]
      simp [c2.1, c2.2]
    · rw [if_neg c1, if_neg c2]
      have hlevel : (if lf = "all" then decide (lookup "level" props ≠ str "low")
          else decide (lookup "level" props = str lf)) = true := by
        by_cases hall : lf = "all"
        · have : lookup "level" props ≠ str "low" := fun e => c2 ⟨hall, e⟩
          simp [hall, this]
        · have : lookup "level" props = str lf := by
            by_contra hne
            exact c1 ⟨hall, hne⟩
          simp [hall, this]
      rw [hlevel, Bool.true_and]
      simp only [List.mem_cons, List.mem_singleton, List.mem_nil_iff, or_false] at hpf
      rcases hpf with rfl | rfl | rfl | rfl
      · simp [periodAdmits, periodDays]
      · simp [hts, callReplace, ht, periodAdmits, periodDays, diffLe, dayMs]
      · simp [hts, callReplace, ht, periodAdmits, periodDays, diffLe, dayMs]
      · simp [hts, callReplace, ht, periodAdmits, periodDays, diffLe, dayMs]

/-- C19. For every list of alert records with parsable timestamps, every reference
time, every level filter and every period filter among "all", "day", "week" and
"month", the alerts table retains an alert if and only if it satisfies the level
predicate and the period predicate, which is true for "all" and is
`now - timestamp ≤ k * 86400000` with `k` = 1, 7, 30 for "day", "week", "month" (the
bound included, no lower bound, so an alert dated in the future passes); the result
is the sub-sequence of the alert list in original order. -/
theorem tableFilter_conjunction (P : Platform) (now : Int) (levelFilter periodFilter : String)
    (alerts : List JVal) (hpf : periodFilter ∈ ["all", "day", "week", "month"])
    (h : ∀ a ∈ alerts, isAlertRecord a = true ∧ (alertTime P a).isSome = true) :
    tableFilter P now levelFilter periodFilter alerts =
      .ok (alerts.filter (tableAdmits P now levelFilter periodFilter)) ∧
    (alerts.filter (tableAdmits P now levelFilter periodFilter)).Sublist alerts ∧
    (∀ t, periodAdmits now "all" t = true ∧
      (periodAdmits now "day" t = true ↔ now - t ≤ 1 * 86400000) ∧
      (periodAdmits now "week" t = true ↔ now - t ≤ 7 * 86400000) ∧
      (periodAdmits now "month" t = true ↔ now - t ≤ 30 * 86400000)) ∧
    (∀ t, now ≤ t → periodAdmits now periodFilter t = true) := by
  refine ⟨?_, List.filter_sublist _, ?_, ?_⟩
  · apply filterE_eq_filter
    intro a ha
    obtain ⟨hrec, hsome⟩ := h a ha
    obtain ⟨t, ht⟩ := Option.isSome_iff_exists.1 hsome
    rw [tablePredicate_parsable P now levelFilter periodFilter a hpf hrec t ht]
    simp [tableAdmits, ht]
  · intro t
    simp [periodAdmits, periodDays]
  · intro t hle
    simp only [List.mem_cons, List.mem_singleton, List.mem_nil_iff, or_false] at hpf
    rcases hpf with rfl | rfl | rfl | rfl <;> simp [periodAdmits, periodDays] <;> omega

/-- Witness of C19 on the sample alerts and one alert dated in the future, at level
"all" and period "week": the low alert fails the level predicate, the two older
alerts fail the period predicate, the future alert passes. -/
theorem tableFilter_conjunction_witness :
    tableFilter refPlatform sampleNow "all" "week" (sampleAlerts ++ [futureAlert]) =
      .ok [sqlAlert, weekAlert, futureAlert] :=
  (tableFilter_conjunction refPlatform sampleNow "all" "week" (sampleAlerts ++ [futureAlert])
    (by decide) (by decide)).1

/-! ### The polling guard -/

theorem pollStep_unmounted (s : PollState) (e : PollEvent) (h : s.mounted = false) :
    (pollStep s e).alerts = s.alerts ∧ (pollStep s e).stats = s.stats ∧
    (pollStep s e).loading = s.loading ∧ (pollStep s e).modelKeys = s.modelKeys ∧
    (pollStep s e).mounted = false ∧ (pollStep s e).timer = s.timer ∨ e = .cleanup := by
  cases e with
  | keysResolved keys => left; simp [pollStep, h]
  | dashResolved outcome =>
    left
    cases outcome with
    | error err => simp [pollStep, h]
    | ok v => by_cases hn : nullish v = true <;> simp [pollStep, h, hn]
  | tick => left; simp [pollStep, h]
  | cleanup => right; rfl

theorem pollRun_unmounted (s : PollState) (events : List PollEvent)
    (h : s.mounted = false) :
    (pollRun s events).alerts = s.alerts ∧ (pollRun s events).stats = s.stats ∧
    (pollRun s events).loading = s.loading ∧ (pollRun s events).modelKeys = s.modelKeys ∧
    (pollRun s events).mounted = false := by
  induction events generalizing s with
  | nil => exact ⟨rfl, rfl, rfl, rfl, h⟩
  | cons e rest ih =>
    have hstep : (pollStep s e).alerts = s.alerts ∧ (pollStep s e).stats = s.stats ∧
        (pollStep s e).loading = s.loading ∧ (pollStep s e).modelKeys = s.modelKeys ∧
        (pollStep s e).mounted = false := by
      rcases pollStep_unmounted s e h with ⟨h1, h2, h3, h4, h5, -⟩ | rfl
      · exact ⟨h1, h2, h3, h4, h5⟩
      · exact ⟨rfl, rfl, rfl, rfl, rfl⟩
    obtain ⟨h1, h2, h3, h4, h5⟩ := hstep
    obtain ⟨g1, g2, g3, g4, g5⟩ := ih (pollStep s e) h5
    show (pollRun (pollStep s e) rest).alerts = s.alerts ∧ _
    exact ⟨g1.trans h1, g2.trans h2, g3.trans h3, g4.trans h4, g5⟩

/-- C20. Once the cleanup of the polling effect has run (`mounted` set to false, the
interval cleared), whatever events follow, in particular every later resolution of an
in-flight `loadDash` or `fetchKeys` request, leave `alerts`, `stats`, `loading` and
`modelKeys` at the values they had when the cleanup ran. -/
theorem polling_guard (s : PollState) (events : List PollEvent) :
    (pollRun (pollStep s .cleanup) events).alerts = s.alerts ∧
    (pollRun (pollStep s .cleanup) events).stats = s.stats ∧
    (pollRun (pollStep s .cleanup) events).loading = s.loading ∧
    (pollRun (pollStep s .cleanup) events).modelKeys = s.modelKeys ∧
    (pollRun (pollStep s .cleanup) events).mounted = false ∧
    (pollStep s .cleanup).timer = false :=
  have h := pollRun_unmounted (pollStep s .cleanup) events rfl
  ⟨h.1, h.2.1, h.2.2.1, h.2.2.2.1, h.2.2.2.2, rfl⟩

/-- Witness of C20: while the effect is active the resolution of `loadDash` with the
SQL aggregate replaces the alerts; after the cleanup the resolution of a later
`loadDash` with an empty aggregate and of `fetchKeys` changes nothing. -/
theorem polling_guard_witness :
    (pollRun initialPollState [.dashResolved (.ok sqlAggregate)]).alerts = arr [sqlAlert] ∧
    (pollRun initialPollState [.dashResolved (.ok sqlAggregate)]).loading = false ∧
    (pollRun (pollStep (pollRun initialPollState [.dashResolved (.ok sqlAggregate)]) .cleanup)
      [.tick, .dashResolved (.ok quietPayload), .keysResolved [str "m1"]]).alerts =
        arr [sqlAlert] ∧
    (pollRun (pollStep (pollRun initialPollState [.dashResolved (.ok sqlAggregate)]) .cleanup)
      [.tick, .dashResolved (.ok quietPayload), .keysResolved [str "m1"]]).modelKeys = [] :=
  ⟨by decide, by decide,
   (polling_guard (pollRun initialPollState [.dashResolved (.ok sqlAggregate)])
      [.tick, .dashResolved (.ok quietPayload), .keysResolved [str "m1"]]).1.trans (by decide),
   (polling_guard (pollRun initialPollState [.dashResolved (.ok sqlAggregate)])
      [.tick, .dashResolved (.ok quietPayload), .keysResolved [str "m1"]]).2.2.2.1.trans
      (by decide)⟩

/-! ### Failure handling of the gateway -/

theorem safeFetch_catches (net : Net) (url : String) (payload : Option JVal) :
    (safeFetch net url payload).1 =
      (match safeFetchTry net ⟨url, payload⟩ with
       | .ok v => v
       | .error _ => null) := by
  simp only [safeFetch, safeFetchTry]
  cases net ⟨url, payload⟩ with
  | failed => rfl
  | response status body =>
    cases body <;> by_cases hs : statusOk status = true <;>
      by_cases h4 : status = 404 <;>
      simp [hs, h4, (by decide : statusOk 404 = false)]

theorem safeFetch_failed (net : Net) (url : String) (payload : Option JVal)
    (h : transportFailed (net ⟨url, payload⟩) = true) :
    (safeFetch net url payload).1 = null := by
  simp only [safeFetch]
  cases hn : net ⟨url, payload⟩ with
  | failed => rfl
  | response status body =>
    rw [hn] at h
    cases body <;> by_cases hs : statusOk status = true <;>
      by_cases h4 : status = 404 <;>
      simp [transportFailed, hs, h4, (by decide : statusOk 404 = false)] at h ⊢

theorem fetchAttackHistory_catches (net : Net) (base : String) (limit : Int) :
    (fetchAttackHistory net base limit).1 =
      (match fetchAttackHistoryTry net (historyRequest base limit) with
       | .ok v => v
       | .error _ => arr []) := by
  simp only [fetchAttackHistory, fetchAttackHistoryTry, historyRequest]
  cases net ⟨base ++ "/attacks?limit=" ++ toString limit, none⟩ with
  | failed => rfl
  | response status body =>
    cases body <;> by_cases hs : statusOk status = true <;> simp [hs]

theorem fetchAttackHistory_failed (net : Net) (base : String) (limit : Int)
    (h : transportFailed (net (historyRequest base limit)) = true) :
    (fetchAttackHistory net base limit).1 = arr [] := by
  simp only [fetchAttackHistory]
  simp only [historyRequest] at h
  cases hn : net ⟨base ++ "/attacks?limit=" ++ toString limit, none⟩ with
  | failed => rfl
  | response status body =>
    rw [hn] at h
    cases body <;> by_cases hs : statusOk status = true <;>
      simp [transportFailed, hs] at h ⊢

theorem fetchModelKeys_value (net : Net) (base : String) :
    (fetchModelKeys net base).1 =
      (match (safeFetch net (base ++ "/models") none).1 with
       | arr items => items
       | _ => []) := by
  simp only [fetchModelKeys]
  generalize safeFetch net (base ++ "/models") none = r
  obtain ⟨v, effects⟩ := r
  cases v <;> rfl

/-- C21. The gateway functions are the catch-all of their `try` blocks and degrade
every failure to a sentinel: for every transport failure (network failure, "not
found", another status outside 200–299, a body that is not JSON) `safeFetch` and
`fetchModelInfo` return `null`, and on a served response they return the parsed body;
`fetchModelKeys` returns the `/models` response when it is an array and the empty
sequence otherwise, in particular on every failure; `fetchAttackHistory` returns the
empty sequence on every failure. -/
theorem gateway_sentinels (net : Net) (base url : String) (payload : Option JVal)
    (key body : JVal) (limit : Int) :
    ((safeFetch net url payload).1 =
      (match safeFetchTry net ⟨url, payload⟩ with
       | .ok v => v
       | .error _ => null)) ∧
    (transportFailed (net ⟨url, payload⟩) = true → (safeFetch net url payload).1 = null) ∧
    (∀ status v, net ⟨url, payload⟩ = .response status (some v) → statusOk status = true →
      (safeFetch net url payload).1 = v) ∧
    (transportFailed (net (modelInfoRequest base key body)) = true →
      (fetchModelInfo net base key body).1 = null) ∧
    ((fetchModelKeys net base).1 =
      (match (safeFetch net (base ++ "/models") none).1 with
       | arr items => items
       | _ => [])) ∧
    (transportFailed (net ⟨base ++ "/models", none⟩) = true →
      (fetchModelKeys net base).1 = []) ∧
    ((fetchAttackHistory net base limit).1 =
      (match fetchAttackHistoryTry net (historyRequest base limit) with
       | .ok v => v
       | .error _ => arr [])) ∧
    (transportFailed (net (historyRequest base limit)) = true →
      (fetchAttackHistory net base limit).1 = arr []) := by
  refine ⟨safeFetch_catches net url payload, safeFetch_failed net url payload, ?_, ?_,
    fetchModelKeys_value net base, ?_, fetchAttackHistory_catches net base limit,
    fetchAttackHistory_failed net base limit⟩
  · intro status v hnet hok
    simp [safeFetch, hnet, hok]
  · intro h
    exact safeFetch_failed net _ _ h
  · intro h
    rw [fetchModelKeys_value, safeFetch_failed net _ _ h]

/-- Witness of C21 on a backend with one failure of each kind: the unreachable
`/models` gives no keys, the model requests that are not found, answered with status
500 or with a body that is not JSON give `null`, the served one gives its body, and
the attack history with a body that is not JSON gives the empty sequence. -/
theorem gateway_sentinels_witness :
    (fetchModelKeys faultyNet localBase).1 = [] ∧
    (fetchModelInfo faultyNet localBase (str "a") null).1 = null ∧
    (fetchModelInfo faultyNet localBase (str "b") null).1 = null ∧
    (fetchModelInfo faultyNet localBase (str "c") (obj [("x", num 1)])).1 = null ∧
    (fetchModelInfo faultyNet localBase (str "d") null).1 = obj [("status", str "ok")] ∧
    (fetchAttackHistory faultyNet localBase 100).1 = arr [] :=
  ⟨(gateway_sentinels faultyNet localBase "" none null null 100).2.2.2.2.2.1 (by decide),
   (gateway_sentinels faultyNet localBase "" none (str "a") null 100).2.2.2.1 (by decide),
   (gateway_sentinels faultyNet localBase "" none (str "b") null 100).2.2.2.1 (by decide),
   (gateway_sentinels faultyNet localBase "" none (str "c") (obj [("x", num 1)])
      100).2.2.2.1 (by decide),
   by decide,
   (gateway_sentinels faultyNet localBase "" none null null 100).2.2.2.2.2.2.2 (by decide)⟩

end Dashboard
